import Mathlib

/-!
# Verification of the personal-finance-tracker core

Shallow embedding of the normalization, categorization and aggregation
logic of the tracker (`src/csv_import.py`, `src/categorizer.py`,
`src/database.py`, `src/analyzer.py`), with theorems settling the
specification claims.

Amounts are embedded as exact rationals; dates are embedded as the
character strings the program manipulates, compared byte-lexicographically
exactly as SQLite compares `TEXT` columns.
-/

set_option autoImplicit false

namespace FinTrack

/-- The decimal digit character for `n % 10` (embeds Python's digit rendering). -/
def dc (n : Nat) : Char :=
  match n with
  | 0 => '0' | 1 => '1' | 2 => '2' | 3 => '3' | 4 => '4'
  | 5 => '5' | 6 => '6' | 7 => '7' | 8 => '8' | _ => '9'

/-- Numeric value of a digit character (embeds `int(c)` on a digit). -/
def dv (c : Char) : Nat := c.toNat - 48

/-- Fuel-driven digit expansion; the fuel always suffices because a number
has no more digits than its own magnitude. -/
def pyNatGo : Nat → Nat → List Char
  | 0, _ => []
  | f + 1, n => if n < 10 then [dc n] else pyNatGo f (n / 10) ++ [dc (n % 10)]

/-- Decimal rendering of a natural number, as Python's `str(n)` produces it. -/
def pyNat (n : Nat) : List Char := pyNatGo (n + 1) n

/-- Zero-padded two-digit rendering, as Python's `f-string` `{n:02d}`. -/
def p2 (n : Nat) : List Char :=
  if n < 10 then ['0', dc n] else pyNat n

/-- Byte-lexicographic strict comparison of character lists: exactly how
SQLite's `memcmp` orders `TEXT` values (for ASCII data). -/
def lexLt : List Char → List Char → Bool
  | [], [] => false
  | [], _ :: _ => true
  | _ :: _, [] => false
  | a :: as, b :: bs =>
    if a.toNat < b.toNat then true
    else if b.toNat < a.toNat then false
    else lexLt as bs

/-- Byte-lexicographic non-strict comparison (SQLite `<=` on `TEXT`). -/
def lexLe : List Char → List Char → Bool
  | [], _ => true
  | _ :: _, [] => false
  | a :: as, b :: bs =>
    if a.toNat < b.toNat then true
    else if b.toNat < a.toNat then false
    else lexLe as bs

/-- A row of the `transactions` table (`database.py`, `_create_tables`). -/
structure Txn where
  id : Nat
  date : List Char
  description : List Char
  amount : ℚ
  category : List Char
  type : List Char
deriving DecidableEq

/-- A row of the `categories` table. -/
structure Cat where
  name : List Char
  budget_limit : ℚ
  type : List Char
deriving DecidableEq

/-- The database state the queries range over. -/
structure Store where
  transactions : List Txn
  categories : List Cat
deriving DecidableEq

/-- `f"{year}-{month:02d}-01"` (`get_monthly_summary` / `check_budget_alerts`). -/
def monthStartChars (y m : Nat) : List Char :=
  pyNat y ++ '-' :: p2 m ++ ['-', '0', '1']

/-- The end bound: `f"{year+1}-01-01"` when the month is December, otherwise
`f"{year}-{month+1:02d}-01"`. -/
def nextMonthStartChars (y m : Nat) : List Char :=
  if m = 12 then pyNat (y + 1) ++ ['-', '0', '1', '-', '0', '1']
  else pyNat y ++ '-' :: p2 (m + 1) ++ ['-', '0', '1']

/-- `f"{year}-{month:02d}"`, the summary's `month` label. -/
def monthLabelChars (y m : Nat) : List Char := pyNat y ++ '-' :: p2 m

/-- The Gregorian leap-year rule, as `datetime` applies it. -/
def isLeap (y : Nat) : Bool := y % 4 == 0 && (y % 100 != 0 || y % 400 == 0)

/-- Number of days of a month, as `datetime` validates it. -/
def daysInMonth (y m : Nat) : Nat :=
  match m with
  | 1 => 31 | 2 => if isLeap y then 29 else 28 | 3 => 31 | 4 => 30
  | 5 => 31 | 6 => 30 | 7 => 31 | 8 => 31 | 9 => 30 | 10 => 31
  | 11 => 30 | 12 => 31 | _ => 0

/-- Canonical rendering of the last calendar day of a month. -/
def lastDayChars (y m : Nat) : List Char :=
  pyNat y ++ '-' :: p2 m ++ '-' :: p2 (daysInMonth y m)

/-- The half-open month window `date >= start AND date < end` of
`get_monthly_summary` and `check_budget_alerts`. -/
def inMonthRange (y m : Nat) (d : List Char) : Bool :=
  lexLe (monthStartChars y m) d && lexLt d (nextMonthStartChars y m)

/-- First-occurrence deduplication: the distinct keys a `GROUP BY` groups on. -/
def dedupFirst {α : Type} [DecidableEq α] : List α → List α
  | [] => []
  | a :: as => a :: (dedupFirst as).filter (fun b => decide (b ≠ a))

/-- Sum of the `amount` column over a list of rows (`SUM(amount)`). -/
def sumAmounts (l : List Txn) : ℚ := (l.map (fun t => t.amount)).sum

/-- `SELECT key, SUM(amount) ... GROUP BY key`: one row per distinct key,
carrying the sum of the amounts of the rows with that key. -/
def groupSumsBy (key : Txn → List Char) (l : List Txn) : List (List Char × ℚ) :=
  (dedupFirst (l.map key)).map
    (fun k => (k, sumAmounts (l.filter (fun t => key t == k))))

/-- The dictionary `get_monthly_summary` returns. -/
structure MonthlySummary where
  income : ℚ
  expenses : ℚ
  balance : ℚ
  month : List Char
deriving DecidableEq

/-- `FinanceDatabase.get_monthly_summary` (`database.py` lines 138-162):
group the month's transactions by `type`, read the `income` and `expense`
sums with default `0`, return `balance = income - expenses`. -/
def get_monthly_summary (store : Store) (y m : Nat) : MonthlySummary :=
  let s := monthStartChars y m
  let e := nextMonthStartChars y m
  let rows := store.transactions.filter (fun t => lexLe s t.date && lexLt t.date e)
  let results := groupSumsBy (fun t => t.type) rows
  let income := ((results.lookup ("income".data)).getD 0)
  let expenses := ((results.lookup ("expense".data)).getD 0)
  { income := income, expenses := expenses, balance := income - expenses,
    month := monthLabelChars y m }

/-- One alert dictionary of `check_budget_alerts`. -/
structure Alert where
  category : List Char
  spent : ℚ
  limit : ℚ
  percentage : ℚ
deriving DecidableEq

/-- One step of the `FROM transactions t JOIN categories c ON
t.category = c.name` join of `check_budget_alerts`: the row produced for one
transaction, if it passes the `WHERE` clause and joins a category with a
positive `budget_limit`. -/
def alertRow (cats : List Cat) (s e : List Char) (t : Txn) :
    Option (Txn × Cat) :=
  if t.type == ("expense".data) && lexLe s t.date && lexLt t.date e then
    match cats.find? (fun c => c.name == t.category) with
    | some c => if decide (0 < c.budget_limit) then some (t, c) else none
    | none => none
  else none

/-- All surviving join rows. -/
def alertJoinRows (cats : List Cat) (s e : List Char) (txns : List Txn) :
    List (Txn × Cat) :=
  txns.filterMap (alertRow cats s e)

/-- `FinanceDatabase.check_budget_alerts` (`database.py` lines 164-198), as
the multiset of result rows: expense transactions of the month joined to
their category (`JOIN categories ON t.category = c.name`, with
`budget_limit > 0`), grouped per category, kept when
`spent >= budget_limit * 0.8`, with `percentage = spent / budget_limit * 100`.
The `ORDER BY percentage DESC` output order is modelled separately by
`budget_alerts_output`, because SQLite leaves the relative order of rows
with equal sort keys unspecified. -/
def check_budget_alerts (store : Store) (y m : Nat) : List Alert :=
  let joined := alertJoinRows store.categories (monthStartChars y m)
    (nextMonthStartChars y m) store.transactions
  let names := dedupFirst (joined.map (fun p => p.2.name))
  names.filterMap (fun n =>
    match store.categories.find? (fun c => c.name == n) with
    | none => none
    | some c =>
      let spent := ((joined.filter (fun p => p.2.name == n)).map
        (fun p => p.1.amount)).sum
      if decide (c.budget_limit * (4 / 5) ≤ spent) then
        some { category := n, spent := spent, limit := c.budget_limit,
               percentage := spent / c.budget_limit * 100 }
      else none)

/-- The total expense spend of a category over a month — the specification's
reading of `spent`. -/
def spentInMonth (store : Store) (y m : Nat) (n : List Char) : ℚ :=
  sumAmounts (store.transactions.filter
    (fun t => t.type == ("expense".data) && t.category == n
      && inMonthRange y m t.date))

/-- The severity label `generate_text_report` (`analyzer.py` line 227)
derives from an alert's percentage. -/
def alert_status (p : ℚ) : List Char :=
  if 100 ≤ p then ("[!] EXCEEDED".data) else ("[!] WARNING".data)

/-- `FinanceDatabase.get_category_spending` (`database.py` lines 126-136), as
the multiset of result rows: expense transactions with
`date BETWEEN start AND end` (inclusive bounds), grouped by category with
summed amounts. The `ORDER BY total DESC` output order is modelled by
`category_spending_output`. -/
def get_category_spending (store : Store) (s e : List Char) :
    List (List Char × ℚ) :=
  groupSumsBy (fun t => t.category)
    (store.transactions.filter
      (fun t => t.type == ("expense".data) && lexLe s t.date && lexLe t.date e))

/-- `ORDER BY k DESC`: adjacent sort keys are non-increasing. -/
def sortedDescBy {α : Type} (f : α → ℚ) : List α → Bool
  | [] => true
  | [_] => true
  | a :: b :: r => decide (f b ≤ f a) && sortedDescBy f (b :: r)

/-- The claim's stronger order: keys strictly decreasing, or equal keys with
category names in ascending byte order. -/
def tieBrokenByName {α : Type} (f : α → ℚ) (g : α → List Char) : List α → Bool
  | [] => true
  | [_] => true
  | a :: b :: r =>
    (decide (f b < f a) || (decide (f a = f b) && lexLt (g a) (g b)))
      && tieBrokenByName f g (b :: r)

/-- The possible result sequences of `get_category_spending`: any
permutation of the grouped rows that is sorted by total descending — all
that SQLite's `ORDER BY total DESC` guarantees. -/
def category_spending_output (store : Store) (s e : List Char)
    (out : List (List Char × ℚ)) : Bool :=
  decide (out.Perm (get_category_spending store s e))
    && sortedDescBy (fun p => p.2) out

/-- The possible result sequences of `check_budget_alerts`: any permutation
of the alert rows sorted by percentage descending. -/
def budget_alerts_output (store : Store) (y m : Nat) (out : List Alert) : Bool :=
  decide (out.Perm (check_budget_alerts store y m))
    && sortedDescBy (fun a => a.percentage) out

/-- `FinanceDatabase.delete_transaction` (`database.py` lines 220-223):
`DELETE FROM transactions WHERE id = ?` — removes matching rows, with no
existence check and no error path. -/
def delete_transaction (store : Store) (tid : Nat) : Store :=
  { store with transactions := store.transactions.filter (fun t => !(t.id == tid)) }

/-- `FinanceDatabase.update_budget_limit` (`database.py` lines 212-218):
`UPDATE categories SET budget_limit = ? WHERE name = ?` — updates matching
rows, with no existence check and no error path. -/
def update_budget_limit (store : Store) (name : List Char) (newLimit : ℚ) : Store :=
  { store with categories := (store.categories.map
      (fun c => if c.name == name then { c with budget_limit := newLimit } else c)) }

/-- Convenience constructor for transaction rows in concrete examples. -/
def mkTxn (i : Nat) (date desc : String) (amt : ℚ) (cat ty : String) : Txn :=
  ⟨i, date.data, desc.data, amt, cat.data, ty.data⟩

/-- Convenience constructor for category rows in concrete examples. -/
def mkCat (n : String) (lim : ℚ) (ty : String) : Cat := ⟨n.data, lim, ty.data⟩

/-- The empty store. -/
def emptyStore : Store := ⟨[], []⟩

/-- A store with one expense category at limit 100 and one in-range expense
of 82 against it (the spec's `spent=82, limit=100` scenario). -/
def sampleStoreFood : Store :=
  ⟨[mkTxn 1 "2024-05-10" "Grocery Store" 82 "Food & Dining" "expense"],
   [mkCat "Food & Dining" 100 "expense"]⟩

/-- A store where an income-typed category with a positive budget limit is
spent against by an expense transaction. -/
def sampleStoreSalary : Store :=
  ⟨[mkTxn 1 "2024-05-10" "Salary advance repayment" 100 "Salary" "expense"],
   [mkCat "Salary" 100 "income"]⟩

/-- A store holding one category and no transactions. -/
def sampleStoreCatOnly : Store :=
  ⟨[], [mkCat "Food & Dining" 100 "expense"]⟩

/-- A store with two expense categories spending the same total in May
2024, to probe tie-breaking. -/
def sampleStoreTie : Store :=
  ⟨[mkTxn 1 "2024-05-10" "x" 10 "Bravo" "expense",
    mkTxn 2 "2024-05-11" "y" 10 "Alpha" "expense"],
   [mkCat "Alpha" 0 "expense", mkCat "Bravo" 0 "expense"]⟩

/-- ASCII lowercasing of one character, as Python's `str.lower` acts on the
ASCII range (the rule table and examples are all ASCII). -/
def lowerChar (c : Char) : Char :=
  if 65 ≤ c.toNat ∧ c.toNat ≤ 90 then Char.ofNat (c.toNat + 32) else c

/-- `description.lower()`. -/
def toLowerChars (l : List Char) : List Char := l.map lowerChar

/-- Python's substring test `needle in hay`. -/
def containsSub (needle : List Char) : List Char → Bool
  | [] => needle.isEmpty
  | h :: t => needle.isPrefixOf (h :: t) || containsSub needle t

/-- The keyword rule table of `TransactionCategorizer.__init__`
(`categorizer.py` lines 12-53), in insertion order. -/
def category_keywords : List (List Char × List (List Char)) :=
  [(("Food & Dining".data),
    [("restaurant".data), ("cafe".data), ("food".data), ("grocery".data),
     ("supermarket".data), ("starbucks".data), ("mcdonald".data),
     ("pizza".data), ("burger".data), ("delivery".data), ("uber eats".data),
     ("doordash".data), ("grubhub".data), ("dining".data)]),
   (("Transportation".data),
    [("gas".data), ("fuel".data), ("uber".data), ("lyft".data),
     ("taxi".data), ("parking".data), ("car wash".data), ("toll".data),
     ("metro".data), ("bus".data), ("train".data), ("subway".data),
     ("vehicle".data), ("maintenance".data), ("repair".data)]),
   (("Shopping".data),
    [("amazon".data), ("walmart".data), ("target".data), ("mall".data),
     ("store".data), ("clothing".data), ("shoes".data),
     ("electronics".data), ("online shopping".data), ("ebay".data),
     ("etsy".data), ("fashion".data), ("retail".data)]),
   (("Bills & Utilities".data),
    [("electric".data), ("water".data), ("gas bill".data),
     ("internet".data), ("phone".data), ("cable".data), ("insurance".data),
     ("rent".data), ("mortgage".data), ("utility".data),
     ("subscription".data), ("netflix".data), ("spotify".data),
     ("hulu".data)]),
   (("Entertainment".data),
    [("movie".data), ("cinema".data), ("theater".data), ("concert".data),
     ("game".data), ("streaming".data), ("hobby".data), ("sports".data),
     ("gym".data), ("fitness".data), ("recreation".data),
     ("amusement".data), ("ticket".data)]),
   (("Healthcare".data),
    [("pharmacy".data), ("doctor".data), ("hospital".data),
     ("clinic".data), ("medical".data), ("dentist".data),
     ("prescription".data), ("health".data), ("medicine".data),
     ("therapy".data), ("wellness".data)]),
   (("Salary".data),
    [("salary".data), ("payroll".data), ("wages".data), ("paycheck".data),
     ("employer".data), ("direct deposit".data), ("income".data)]),
   (("Freelance".data),
    [("freelance".data), ("consulting".data), ("contract".data),
     ("gig".data), ("side job".data), ("project payment".data)])]

/-- The scan of `TransactionCategorizer.categorize` (`categorizer.py` lines
55-74): first category in table order one of whose keywords occurs as a
substring of the (already lowercased) description, else the default. -/
def categorizeScan (dl : List Char) :
    List (List Char × List (List Char)) → List Char
  | [] => ("Other Expenses".data)
  | (cat, kws) :: rest =>
    if kws.any (fun kw => containsSub kw dl) then cat
    else categorizeScan dl rest

/-- `TransactionCategorizer.categorize`. -/
def categorize (description : List Char) : List Char :=
  categorizeScan (toLowerChars description) category_keywords

/-- `TransactionCategorizer.get_suggested_category` (`categorizer.py` lines
76-98): positive amounts whose base category starts with `Other` are
re-checked against income keyword lists. -/
def get_suggested_category (description : List Char) (amount : ℚ) :
    List Char :=
  let base := categorize description
  if decide (0 < amount) && (("Other".data).isPrefixOf base) then
    if [("salary".data), ("payroll".data), ("employer".data)].any
        (fun w => containsSub w (toLowerChars description)) then
      ("Salary".data)
    else if [("freelance".data), ("consulting".data),
        ("contract".data)].any
        (fun w => containsSub w (toLowerChars description)) then
      ("Freelance".data)
    else ("Other Income".data)
  else base

/-- The ASCII whitespace characters Python's `str.strip` removes. -/
def isSpaceChar (c : Char) : Bool :=
  c == ' ' || c == '\t' || c == '\n' || c == '\r'
    || c == Char.ofNat 11 || c == Char.ofNat 12

/-- Python's `str.strip()`: drop whitespace from both ends. -/
def stripChars (l : List Char) : List Char :=
  (((l.dropWhile isSpaceChar).reverse).dropWhile isSpaceChar).reverse

/-- `str.replace(c, "")`: delete every occurrence of a character. -/
def removeAll (c : Char) (l : List Char) : List Char :=
  l.filter (fun x => !(x == c))

/-- `str.replace(a, b)` for single characters. -/
def replaceChar (a b : Char) (l : List Char) : List Char :=
  l.map (fun x => if x == a then b else x)

/-- The string clean-up pipeline of `CSVImporter._parse_amount`
(`csv_import.py` lines 150-164): strip, delete `$`, `€`, `£` and `,`, and
turn a parenthesised value into a negated one (`(` becomes `-`, `)` is
deleted) when both parentheses occur. -/
def amountClean (l : List Char) : List Char :=
  let s1 := stripChars l
  let s2 := removeAll ',' (removeAll '£' (removeAll '€' (removeAll '$' s1)))
  if s2.contains '(' && s2.contains ')' then
    removeAll ')' (replaceChar '(' '-' s2)
  else s2

/-- Decimal value of a digit string. -/
def digitsVal (l : List Char) : Nat :=
  l.foldl (fun acc c => acc * 10 + dv c) 0

/-- The exponent part of a Python float literal: an optional sign followed
by one or more digits, consuming the whole remainder. -/
def pyExp (r : List Char) : Option Int :=
  match r with
  | '+' :: r2 =>
    if !r2.isEmpty && r2.all Char.isDigit then some (Int.ofNat (digitsVal r2))
    else none
  | '-' :: r2 =>
    if !r2.isEmpty && r2.all Char.isDigit then
      some (-(Int.ofNat (digitsVal r2)))
    else none
  | _ =>
    if !r.isEmpty && r.all Char.isDigit then some (Int.ofNat (digitsVal r))
    else none

/-- Python's `float(str)` on the finite decimal/scientific literal forms:
surrounding whitespace is ignored, then an optional sign, digits with an
optional fractional part (at least one digit overall), and an optional
exponent. The special forms `inf`/`nan` and digit-group underscores, which
no claim exercises, are outside this model. -/
def pyFloat (input : List Char) : Option ℚ :=
  let l := stripChars input
  let sgnr : ℚ × List Char :=
    match l with
    | '-' :: r => (-1, r)
    | '+' :: r => (1, r)
    | _ => (1, l)
  let sgn := sgnr.1
  let r1 := sgnr.2
  let ip := r1.takeWhile Char.isDigit
  let r2 := r1.dropWhile Char.isDigit
  let fpr : List Char × List Char :=
    match r2 with
    | '.' :: r => (r.takeWhile Char.isDigit, r.dropWhile Char.isDigit)
    | _ => ([], r2)
  let fp := fpr.1
  let r3 := fpr.2
  if ip.isEmpty && fp.isEmpty then none
  else
    let mant : ℚ := sgn * ((digitsVal ip : ℚ)
      + (digitsVal fp : ℚ) / 10 ^ fp.length)
    match r3 with
    | [] => some mant
    | c :: r4 =>
      if c == 'e' || c == 'E' then
        match pyExp r4 with
        | some ex => some (mant * (10 : ℚ) ^ ex)
        | none => none
      else none

/-- `CSVImporter._parse_amount`: clean the string and convert with
`float`; `none` embeds the raised `ValueError`. -/
def parse_amount (l : List Char) : Option ℚ := pyFloat (amountClean l)

/-- One alternative of the `strptime` regex for `%Y`: exactly four digits. -/
def matchY (s : List Char) : List (Nat × List Char) :=
  match s with
  | a :: b :: c :: d :: rest =>
    if a.isDigit && b.isDigit && c.isDigit && d.isDigit then
      [(dv a * 1000 + dv b * 100 + dv c * 10 + dv d, rest)]
    else []
  | _ => []

/-- The `strptime` regex for `%m`, `1[0-2]|0[1-9]|[1-9]`, as the ordered
list of backtracking candidates `(value, rest)`. -/
def matchM (s : List Char) : List (Nat × List Char) :=
  (match s with
   | a :: b :: rest =>
     if a == '1' && decide (48 ≤ b.toNat) && decide (b.toNat ≤ 50) then
       [(10 + dv b, rest)]
     else []
   | _ => []) ++
  (match s with
   | a :: b :: rest =>
     if a == '0' && decide (49 ≤ b.toNat) && decide (b.toNat ≤ 57) then
       [(dv b, rest)]
     else []
   | _ => []) ++
  (match s with
   | a :: rest =>
     if decide (49 ≤ a.toNat) && decide (a.toNat ≤ 57) then [(dv a, rest)]
     else []
   | _ => [])

/-- The `strptime` regex for `%d`, `3[01]|[12]\d|0[1-9]|[1-9]`, as ordered
backtracking candidates. -/
def matchD (s : List Char) : List (Nat × List Char) :=
  (match s with
   | a :: b :: rest =>
     if a == '3' && decide (48 ≤ b.toNat) && decide (b.toNat ≤ 49) then
       [(30 + dv b, rest)]
     else []
   | _ => []) ++
  (match s with
   | a :: b :: rest =>
     if (a == '1' || a == '2') && b.isDigit then
       [(dv a * 10 + dv b, rest)]
     else []
   | _ => []) ++
  (match s with
   | a :: b :: rest =>
     if a == '0' && decide (49 ≤ b.toNat) && decide (b.toNat ≤ 57) then
       [(dv b, rest)]
     else []
   | _ => []) ++
  (match s with
   | a :: rest =>
     if decide (49 ≤ a.toNat) && decide (a.toNat ≤ 57) then [(dv a, rest)]
     else []
   | _ => [])

/-- A literal character of the format. -/
def matchLit (c : Char) (s : List Char) : List (List Char) :=
  match s with
  | a :: rest => if a == c then [rest] else []
  | _ => []

/-- A whitespace run in the format becomes the regex `\s+`: the greedy
candidates consume as many leading whitespace characters as possible,
backtracking down to one. -/
def matchWS (s : List Char) : List (List Char) :=
  let n := (s.takeWhile isSpaceChar).length
  (List.range n).map (fun i => s.drop (n - i))

/-- Case-insensitive match of one (lowercase) name against the input
head; returns the rest on success. -/
def lowerPrefixMatch : List Char → List Char → Option (List Char)
  | [], s => some s
  | _ :: _, [] => none
  | n :: ns, c :: cs =>
    if lowerChar c == n then lowerPrefixMatch ns cs else none

/-- The month-name alternation of `%b`/`%B` (compiled case-insensitively
from the locale's names; no name is a prefix of another, so at most one
alternative matches and the regex's longest-first order is immaterial). -/
def matchNames (names : List (Nat × List Char)) (s : List Char) :
    List (Nat × List Char) :=
  names.filterMap (fun p =>
    match lowerPrefixMatch p.2 s with
    | some rest => some (p.1, rest)
    | none => none)

/-- The C-locale abbreviated month names `%b` matches. -/
def monthAbbrevPairs : List (Nat × List Char) :=
  [(1, ("jan".data)), (2, ("feb".data)), (3, ("mar".data)),
   (4, ("apr".data)), (5, ("may".data)), (6, ("jun".data)),
   (7, ("jul".data)), (8, ("aug".data)), (9, ("sep".data)),
   (10, ("oct".data)), (11, ("nov".data)), (12, ("dec".data))]

/-- The C-locale full month names `%B` matches. -/
def monthFullPairs : List (Nat × List Char) :=
  [(1, ("january".data)), (2, ("february".data)), (3, ("march".data)),
   (4, ("april".data)), (5, ("may".data)), (6, ("june".data)),
   (7, ("july".data)), (8, ("august".data)), (9, ("september".data)),
   (10, ("october".data)), (11, ("november".data)), (12, ("december".data))]

/-- The format `%Y<sep>%m<sep>%d` as a backtracking parser: all full-match
candidates in regex priority order. -/
def parseYMDsep (sep : Char) (s : List Char) : List (Nat × Nat × Nat) :=
  (matchY s).flatMap (fun p1 =>
  (matchLit sep p1.2).flatMap (fun r2 =>
  (matchM r2).flatMap (fun p2 =>
  (matchLit sep p2.2).flatMap (fun r4 =>
  (matchD r4).flatMap (fun p3 =>
  if p3.2.isEmpty then [(p1.1, p2.1, p3.1)] else [])))))

/-- The format `%m<sep>%d<sep>%Y`. -/
def parseMDYsep (sep : Char) (s : List Char) : List (Nat × Nat × Nat) :=
  (matchM s).flatMap (fun p1 =>
  (matchLit sep p1.2).flatMap (fun r2 =>
  (matchD r2).flatMap (fun p2 =>
  (matchLit sep p2.2).flatMap (fun r4 =>
  (matchY r4).flatMap (fun p3 =>
  if p3.2.isEmpty then [(p3.1, p1.1, p2.1)] else [])))))

/-- The format `%d<sep>%m<sep>%Y`. -/
def parseDMYsep (sep : Char) (s : List Char) : List (Nat × Nat × Nat) :=
  (matchD s).flatMap (fun p1 =>
  (matchLit sep p1.2).flatMap (fun r2 =>
  (matchM r2).flatMap (fun p2 =>
  (matchLit sep p2.2).flatMap (fun r4 =>
  (matchY r4).flatMap (fun p3 =>
  if p3.2.isEmpty then [(p3.1, p2.1, p1.1)] else [])))))

/-- The formats `%b %d, %Y` / `%B %d, %Y` (a space in the format matches
`\s+`). -/
def parseNameFmt (names : List (Nat × List Char)) (s : List Char) :
    List (Nat × Nat × Nat) :=
  (matchNames names s).flatMap (fun p1 =>
  (matchWS p1.2).flatMap (fun r2 =>
  (matchD r2).flatMap (fun p2 =>
  (matchLit ',' p2.2).flatMap (fun r4 =>
  (matchWS r4).flatMap (fun r5 =>
  (matchY r5).flatMap (fun p3 =>
  if p3.2.isEmpty then [(p3.1, p1.1, p2.1)] else []))))))

/-- `datetime`'s validity check on the regex-extracted fields: the regex
already confines month and day ranges, and the constructor enforces year
bounds and the per-month day count. -/
def validDate (t : Nat × Nat × Nat) : Bool :=
  decide (1 ≤ t.1) && decide (t.1 ≤ 9999) && decide (1 ≤ t.2.1)
    && decide (t.2.1 ≤ 12) && decide (1 ≤ t.2.2)
    && decide (t.2.2 ≤ daysInMonth t.1 t.2.1)

/-- One `strptime` attempt: the regex picks its highest-priority full
match; an invalid date then raises (`none`), without trying lower-priority
matches. -/
def tryFormat (cands : List (Nat × Nat × Nat)) : Option (Nat × Nat × Nat) :=
  match cands with
  | [] => none
  | t :: _ => if validDate t then some t else none

/-- The eight formats of `_parse_date` (`csv_import.py` lines 128-137), in
order. -/
def dateFormatsResults (s : List Char) : List (Option (Nat × Nat × Nat)) :=
  [tryFormat (parseYMDsep '-' s),
   tryFormat (parseMDYsep '/' s),
   tryFormat (parseDMYsep '/' s),
   tryFormat (parseYMDsep '/' s),
   tryFormat (parseMDYsep '-' s),
   tryFormat (parseDMYsep '-' s),
   tryFormat (parseNameFmt monthAbbrevPairs s),
   tryFormat (parseNameFmt monthFullPairs s)]

def firstSome {α : Type} : List (Option α) → Option α
  | [] => none
  | some x :: _ => some x
  | none :: rest => firstSome rest

/-- Zero-padded four-digit year, as `strftime('%Y')` renders the years the
claims range over. -/
def p4 (n : Nat) : List Char :=
  if n < 10 then '0' :: '0' :: '0' :: [dc n]
  else if n < 100 then '0' :: '0' :: pyNat n
  else if n < 1000 then '0' :: pyNat n
  else pyNat n

/-- The canonical `%Y-%m-%d` rendering `_parse_date` returns. -/
def fmtISO (y m d : Nat) : List Char := p4 y ++ '-' :: p2 m ++ '-' :: p2 d

/-- `CSVImporter._parse_date` (`csv_import.py` lines 123-148): strip, try
the formats in order, render the first (valid) hit canonically, `none` for
the raised `ValueError`. -/
def parse_date (s : List Char) : Option (List Char) :=
  (firstSome (dateFormatsResults (stripChars s))).map
    (fun t => fmtISO t.1 t.2.1 t.2.2)

/-- `format_as` for `%Y<sep>%m<sep>%d`. -/
def fmtYMDsep (sep : Char) (y m d : Nat) : List Char :=
  pyNat y ++ sep :: p2 m ++ sep :: p2 d

/-- `format_as` for `%m<sep>%d<sep>%Y`. -/
def fmtMDYsep (sep : Char) (y m d : Nat) : List Char :=
  p2 m ++ sep :: p2 d ++ sep :: pyNat y

/-- `format_as` for `%d<sep>%m<sep>%Y`. -/
def fmtDMYsep (sep : Char) (y m d : Nat) : List Char :=
  p2 d ++ sep :: p2 m ++ sep :: pyNat y

/-- The capitalized month names `strftime('%b')` prints. -/
def monthAbbrevCap : List (List Char) :=
  [("Jan".data), ("Feb".data), ("Mar".data), ("Apr".data), ("May".data),
   ("Jun".data), ("Jul".data), ("Aug".data), ("Sep".data), ("Oct".data),
   ("Nov".data), ("Dec".data)]

/-- The capitalized month names `strftime('%B')` prints. -/
def monthFullCap : List (List Char) :=
  [("January".data), ("February".data), ("March".data), ("April".data),
   ("May".data), ("June".data), ("July".data), ("August".data),
   ("September".data), ("October".data), ("November".data),
   ("December".data)]

/-- `format_as` for `%b %d, %Y`. -/
def fmtB (y m d : Nat) : List Char :=
  (monthAbbrevCap.getD (m - 1) []) ++ ' ' :: p2 d ++ ',' :: ' ' :: pyNat y

/-- `format_as` for `%B %d, %Y`. -/
def fmtBB (y m d : Nat) : List Char :=
  (monthFullCap.getD (m - 1) []) ++ ' ' :: p2 d ++ ',' :: ' ' :: pyNat y


/-- One raw CSV row: the date, description and amount strings the reader
extracts (`csv_import.py` lines 43-52). -/
structure RawRow where
  date : List Char
  desc : List Char
  amount : List Char
deriving DecidableEq

/-- The transaction dictionary `parse_csv` builds for one accepted row. -/
structure CsvTxn where
  date : List Char
  description : List Char
  amount : ℚ
  category : List Char
  type : List Char
deriving DecidableEq

/-- The body of the `parse_csv` row loop (`csv_import.py` lines 54-82):
a row whose date or amount fails to parse is skipped with a printed
message (the `error` case carries that message, which contains only the
offending value); otherwise the transaction dictionary is built with the
strict `amount > 0` income test, the absolute value, and the suggested
category computed from the signed amount. -/
def processRow (r : RawRow) : Except (List Char) CsvTxn :=
  match parse_date r.date with
  | none =>
    Except.error (("Skipping row with invalid date: ".data) ++ r.date)
  | some dt =>
    match parse_amount r.amount with
    | none =>
      Except.error (("Skipping row with invalid amount: ".data) ++ r.amount)
    | some amt =>
      let ttype : List Char :=
        if 0 < amt then ("income".data) else ("expense".data)
      let aabs : ℚ := |amt|
      Except.ok (CsvTxn.mk dt r.desc aabs
        (get_suggested_category r.desc
          (if ttype = ("income".data) then aabs else -aabs))
        ttype)

/-- `parse_csv` over a batch of raw rows: parsed transactions in order,
and the skip messages that were printed (the code keeps no failure list;
the messages are the only record). -/
def parseCsv : List RawRow → List CsvTxn × List (List Char)
  | [] => ([], [])
  | r :: rest =>
    match processRow r, parseCsv rest with
    | Except.ok t, p => (t :: p.1, p.2)
    | Except.error e, p => (p.1, e :: p.2)

/-- `import_transactions` inserts every parsed row and returns the count
(`csv_import.py` lines 85-118; `add_transaction` has no failure path in
this model). -/
def import_count (rows : List RawRow) : Nat := (parseCsv rows).1.length

def okRow : RawRow := ⟨("2024-01-15".data), ("x".data), ("7".data)⟩

def badDateRow : RawRow := ⟨("13/13/2024".data), ("x".data), ("7".data)⟩

def demoBatch : List RawRow := [okRow, okRow, badDateRow, okRow, okRow]

def demoBatchLate : List RawRow :=
  [okRow, okRow, okRow, okRow, badDateRow]

end FinTrack

namespace FinTrack

theorem char_toNat_inj {a b : Char} (h : a.toNat = b.toNat) : a = b := by
  rw [← Char.ofNat_toNat a, ← Char.ofNat_toNat b, h]

theorem lexLt_append_left (p a b : List Char) :
    lexLt (p ++ a) (p ++ b) = lexLt a b := by
  induction p with
  | nil => rfl
  | cons c cs ih => simp [lexLt, ih]

theorem lexLe_append_left (p a b : List Char) :
    lexLe (p ++ a) (p ++ b) = lexLe a b := by
  induction p with
  | nil => rfl
  | cons c cs ih => simp [lexLe, ih]

theorem lexLt_irrefl (l : List Char) : lexLt l l = false := by
  induction l with
  | nil => rfl
  | cons c cs ih => simp [lexLt, ih]

/-- A strict prefix-position difference decides the comparison regardless of
what comes after equal-length prefixes. -/
theorem lexLt_append_of_lexLt {a b : List Char} (h : lexLt a b = true)
    (hlen : a.length = b.length) (s t : List Char) :
    lexLt (a ++ s) (b ++ t) = true := by
  induction a generalizing b with
  | nil => cases b <;> simp_all [lexLt]
  | cons x xs ih =>
    cases b with
    | nil =>
      simp only [List.length_cons, List.length_nil] at hlen
      omega
    | cons y ys =>
      simp only [lexLt, List.cons_append] at h ⊢
      by_cases h1 : x.toNat < y.toNat
      · simp [h1]
      · by_cases h2 : y.toNat < x.toNat
        · simp [h1, h2] at h
        · simp only [if_neg h1, if_neg h2] at h ⊢
          exact ih h (by
            simp only [List.length_cons] at hlen
            omega)

theorem dv_dc {n : Nat} (h : n < 10) : dv (dc n) = n := by
  interval_cases n <;> decide

theorem dc_lt_dc {m n : Nat} (hm : m < 10) (hn : n < 10) (h : m < n) :
    (dc m).toNat < (dc n).toNat := by
  interval_cases m <;> interval_cases n <;> simp_all <;> decide

theorem pyNatGo_congr : ∀ {f1 f2 n : Nat}, n < f1 → n < f2 →
    pyNatGo f1 n = pyNatGo f2 n
  | f1 + 1, f2 + 1, n, h1, h2 => by
    simp only [pyNatGo]
    by_cases h : n < 10
    · simp [h]
    · have : n / 10 < f1 ∧ n / 10 < f2 := by omega
      simp only [if_neg h, pyNatGo_congr this.1 this.2]

theorem pyNat_lt10 {n : Nat} (h : n < 10) : pyNat n = [dc n] := by
  simp [pyNat, pyNatGo, h]

theorem pyNat_ge10 {n : Nat} (h : 10 ≤ n) :
    pyNat n = pyNat (n / 10) ++ [dc (n % 10)] := by
  have e : pyNatGo (n + 1) n
      = if n < 10 then [dc n] else pyNatGo n (n / 10) ++ [dc (n % 10)] := rfl
  rw [pyNat, pyNat, e, if_neg (Nat.not_lt.mpr h),
    pyNatGo_congr (show n / 10 < n by omega) (Nat.lt_succ_self _)]

theorem pyNat_length_pos (n : Nat) : 0 < (pyNat n).length := by
  by_cases h : n < 10
  · simp [pyNat_lt10 h]
  · rw [pyNat_ge10 (by omega)]; simp

/-- Last-digit comparison of equal-length suffixes. -/
theorem lexLt_append_last {x y : List Char} (c d : Char)
    (hlen : x.length = y.length) :
    lexLt (x ++ [c]) (y ++ [d]) =
      (lexLt x y || (decide (x = y) && decide (c.toNat < d.toNat))) := by
  induction x generalizing y with
  | nil =>
    cases y with
    | nil => simp [lexLt]
    | cons b bs =>
      simp only [List.length_nil, List.length_cons] at hlen
      omega
  | cons a as ih =>
    cases y with
    | nil =>
      simp only [List.length_nil, List.length_cons] at hlen
      omega
    | cons b bs =>
      simp only [List.cons_append, lexLt, List.append_eq]
      by_cases h1 : a.toNat < b.toNat
      · simp [h1]
      · by_cases h2 : b.toNat < a.toNat
        · have : ¬ a = b := by intro hab; subst hab; omega
          simp [h1, h2, this]
        · have hab : a = b := char_toNat_inj (by omega)
          subst hab
          simp only [if_neg h1, if_neg h2]
          rw [ih (by
            simp only [List.length_cons] at hlen
            omega)]
          simp

/-- Equal-length decimal renderings order the same way as the numbers:
the heart of "lexicographic order on canonical dates is calendar order". -/
theorem pyNat_lexLt {m n : Nat} (h : m < n)
    (hlen : (pyNat m).length = (pyNat n).length) :
    lexLt (pyNat m) (pyNat n) = true := by
  by_cases hm : m < 10
  · by_cases hn : n < 10
    · simp [pyNat_lt10 hm, pyNat_lt10 hn, lexLt, dc_lt_dc hm hn h]
    · exfalso
      rw [pyNat_lt10 hm, pyNat_ge10 (by omega)] at hlen
      have := pyNat_length_pos (n / 10)
      simp only [List.length_cons, List.length_append, List.length_nil] at hlen
      omega
  · by_cases hn : n < 10
    · omega
    · rw [pyNat_ge10 (show 10 ≤ m by omega), pyNat_ge10 (show 10 ≤ n by omega)] at hlen ⊢
      have hlen' : (pyNat (m / 10)).length = (pyNat (n / 10)).length := by
        simp only [List.length_append, List.length_cons, List.length_nil] at hlen
        omega
      rw [lexLt_append_last _ _ hlen']
      rcases Nat.lt_or_ge (m / 10) (n / 10) with hq | hq
      · have := pyNat_lexLt hq hlen'
        simp [this]
      · have hq' : m / 10 = n / 10 := by omega
        have hr : m % 10 < n % 10 := by omega
        rw [hq']
        simp [lexLt_irrefl, dc_lt_dc (Nat.mod_lt _ (by omega)) (Nat.mod_lt _ (by omega)) hr]
termination_by n
decreasing_by omega

theorem mem_dedupFirst {α : Type} [DecidableEq α] {a : α} {l : List α} :
    a ∈ dedupFirst l ↔ a ∈ l := by
  induction l with
  | nil => simp [dedupFirst]
  | cons b bs ih =>
    simp only [dedupFirst, List.mem_cons, List.mem_filter, ih]
    constructor
    · rintro (rfl | ⟨h, _⟩)
      · exact Or.inl rfl
      · exact Or.inr h
    · rintro (rfl | h)
      · exact Or.inl rfl
      · rcases eq_or_ne a b with rfl | hne
        · exact Or.inl rfl
        · exact Or.inr ⟨h, by simpa using hne⟩

theorem lookup_map_self {β : Type} (keys : List (List Char)) (f : List Char → β)
    (k : List Char) (h : k ∈ keys) :
    (keys.map (fun k2 => (k2, f k2))).lookup k = some (f k) := by
  induction keys with
  | nil => cases h
  | cons a as ih =>
    rcases eq_or_ne k a with rfl | hne
    · simp [List.lookup]
    · have hb : (k == a) = false := beq_eq_false_iff_ne.mpr hne
      simp only [List.map_cons, List.lookup, hb]
      exact ih (by
        rcases List.mem_cons.mp h with rfl | h2
        · exact absurd rfl hne
        · exact h2)

theorem lookup_map_none {β : Type} (keys : List (List Char)) (f : List Char → β)
    (k : List Char) (h : k ∉ keys) :
    (keys.map (fun k2 => (k2, f k2))).lookup k = none := by
  induction keys with
  | nil => rfl
  | cons a as ih =>
    have hne : k ≠ a := fun e => h (e ▸ List.mem_cons_self a as)
    have hb : (k == a) = false := beq_eq_false_iff_ne.mpr hne
    simp only [List.map_cons, List.lookup, hb]
    exact ih (fun h2 => h (List.mem_cons_of_mem a h2))

/-- Looking a key up in a `GROUP BY` result, with default `0`, yields exactly
the sum over the rows carrying that key. -/
theorem getD_lookup_groupSumsBy (key : Txn → List Char) (l : List Txn)
    (k : List Char) :
    ((groupSumsBy key l).lookup k).getD 0
      = sumAmounts (l.filter (fun t => key t == k)) := by
  by_cases h : k ∈ dedupFirst (l.map key)
  · rw [groupSumsBy, lookup_map_self _ _ _ h, Option.getD_some]
  · rw [groupSumsBy, lookup_map_none _ _ _ h, Option.getD_none]
    have hnm : k ∉ l.map key := fun h2 => h (mem_dedupFirst.mpr h2)
    have : l.filter (fun t => key t == k) = [] := by
      apply List.filter_eq_nil_iff.mpr
      intro t ht hkey
      exact hnm (List.mem_map.mpr ⟨t, ht, eq_of_beq hkey⟩)
    rw [this]
    rfl

/-- The per-type sums `get_monthly_summary` reads out of the grouped query
are the plain filtered sums over the month window. -/
theorem get_monthly_summary_sums (store : Store) (y m : Nat) :
    (get_monthly_summary store y m).income
        = sumAmounts (store.transactions.filter
            (fun t => t.type == ("income".data) && inMonthRange y m t.date))
      ∧ (get_monthly_summary store y m).expenses
        = sumAmounts (store.transactions.filter
            (fun t => t.type == ("expense".data) && inMonthRange y m t.date)) := by
  constructor <;>
  · show ((groupSumsBy (fun t => t.type) _).lookup _).getD 0 = _
    rw [getD_lookup_groupSumsBy, List.filter_filter]
    rfl

theorem pyNat_len4 {n : Nat} (h1 : 1000 ≤ n) (h2 : n ≤ 9999) :
    (pyNat n).length = 4 := by
  rw [pyNat_ge10 (show 10 ≤ n by omega),
    pyNat_ge10 (show 10 ≤ n / 10 by omega),
    pyNat_ge10 (show 10 ≤ n / 10 / 10 by omega),
    pyNat_lt10 (show n / 10 / 10 / 10 < 10 by omega)]
  simp

theorem daysInMonth_bounds (y : Nat) {m : Nat} (hm1 : 1 ≤ m) (hm2 : m ≤ 12) :
    28 ≤ daysInMonth y m ∧ daysInMonth y m ≤ 31 := by
  interval_cases m <;> by_cases h : isLeap y <;> simp [daysInMonth, h]

/-- The first of the month is at most the last day, in byte order. -/
theorem monthStart_le_lastDay (y : Nat) {m : Nat} (hm1 : 1 ≤ m) (hm2 : m ≤ 12) :
    lexLe (monthStartChars y m) (lastDayChars y m) = true := by
  have e1 : monthStartChars y m
      = (pyNat y ++ '-' :: p2 m ++ ['-']) ++ ['0', '1'] := by
    simp [monthStartChars]
  have e2 : lastDayChars y m
      = (pyNat y ++ '-' :: p2 m ++ ['-']) ++ p2 (daysInMonth y m) := by
    simp [lastDayChars]
  rw [e1, e2, lexLe_append_left]
  obtain ⟨hd1, hd2⟩ := daysInMonth_bounds y hm1 hm2
  set d := daysInMonth y m with hd
  clear_value d
  interval_cases d <;> decide

/-- The last day of the month is strictly below the next month's first day,
in byte order — including the December rollover to `year + 1`. -/
theorem lastDay_lt_nextStart {y m : Nat} (hy1 : 1000 ≤ y) (hy2 : y ≤ 9998)
    (hm1 : 1 ≤ m) (hm2 : m ≤ 12) :
    lexLt (lastDayChars y m) (nextMonthStartChars y m) = true := by
  by_cases h12 : m = 12
  · subst h12
    have hlen : (pyNat y).length = (pyNat (y + 1)).length := by
      rw [pyNat_len4 hy1 (by omega), pyNat_len4 (by omega) (by omega)]
    have hlt : lexLt (pyNat y) (pyNat (y + 1)) = true :=
      pyNat_lexLt (by omega) hlen
    have hd : daysInMonth y 12 = 31 := rfl
    have hsuf : (('-' :: p2 12 : List Char) ++ ('-' :: p2 31))
        = ['-', '1', '2', '-', '3', '1'] := by decide
    have e1 : lastDayChars y 12 = pyNat y ++ ['-', '1', '2', '-', '3', '1'] := by
      rw [lastDayChars, hd, List.append_assoc, hsuf]
    have e2 : nextMonthStartChars y 12
        = pyNat (y + 1) ++ ['-', '0', '1', '-', '0', '1'] := by
      rw [nextMonthStartChars]
      simp
    rw [e1, e2]
    exact lexLt_append_of_lexLt hlt hlen _ _
  · have hm11 : m ≤ 11 := by omega
    have e1 : lastDayChars y m
        = (pyNat y ++ ['-']) ++ (p2 m ++ '-' :: p2 (daysInMonth y m)) := by
      simp [lastDayChars]
    have e2 : nextMonthStartChars y m
        = (pyNat y ++ ['-']) ++ (p2 (m + 1) ++ ['-', '0', '1']) := by
      simp [nextMonthStartChars, h12]
    rw [e1, e2, lexLt_append_left]
    interval_cases m <;> by_cases h : isLeap y <;>
      simp only [daysInMonth, h, if_true, if_false] <;> decide

/-- The end bound itself is excluded by the strict `date < end` filter. -/
theorem nextStart_not_in_range (y m : Nat) :
    inMonthRange y m (nextMonthStartChars y m) = false := by
  simp [inMonthRange, lexLt_irrefl]

theorem map_if_name_eq_self {cats : List Cat} {n : List Char} {lim : ℚ}
    (h : ∀ c ∈ cats, c.name ≠ n) :
    cats.map (fun c => if c.name == n then { c with budget_limit := lim } else c)
      = cats := by
  induction cats with
  | nil => rfl
  | cons a as ih =>
    have hb : (a.name == n) = false :=
      beq_eq_false_iff_ne.mpr (h a (List.mem_cons_self a as))
    simp only [List.map_cons, hb, Bool.false_eq_true, if_false]
    rw [ih (fun c hc => h c (List.mem_cons_of_mem a hc))]

theorem name_unique {cats : List Cat}
    (hnd : (cats.map (fun c => c.name)).Nodup)
    {c1 c2 : Cat} (h1 : c1 ∈ cats) (h2 : c2 ∈ cats) (he : c1.name = c2.name) :
    c1 = c2 := by
  induction cats with
  | nil => cases h1
  | cons a as ih =>
    rw [List.map_cons, List.nodup_cons] at hnd
    rcases List.mem_cons.mp h1 with rfl | h1' <;>
      rcases List.mem_cons.mp h2 with rfl | h2'
    · rfl
    · exact absurd (List.mem_map.mpr ⟨c2, h2', he.symm⟩) hnd.1
    · exact absurd (List.mem_map.mpr ⟨c1, h1', he⟩) hnd.1
    · exact ih hnd.2 h1' h2'

theorem find?_name_self {cats : List Cat}
    (hnd : (cats.map (fun c => c.name)).Nodup) {c : Cat} (hc : c ∈ cats) :
    cats.find? (fun c2 => c2.name == c.name) = some c := by
  induction cats with
  | nil => cases hc
  | cons a as ih =>
    rw [List.map_cons, List.nodup_cons] at hnd
    rcases List.mem_cons.mp hc with rfl | htl
    · exact List.find?_cons_of_pos _ (by simp)
    · have hne : a.name ≠ c.name := by
        intro e
        exact hnd.1 (List.mem_map.mpr ⟨c, htl, e.symm⟩)
      rw [List.find?_cons_of_neg _ (by simpa using hne)]
      exact ih hnd.2 htl

/-- Universally-quantified boolean reshuffle used to line the `WHERE` clause
up with the specification-side filter. -/
theorem bool_shuffle :
    ∀ a b c d : Bool, (((a && b) && c) && d) = ((a && d) && (b && c)) := by
  decide

/-- A transaction failing the `WHERE` clause produces no join row. -/
theorem alertRow_none_cond {cats : List Cat} {s e : List Char} {t : Txn}
    (h : (t.type == ("expense".data) && lexLe s t.date && lexLt t.date e)
      = false) :
    alertRow cats s e t = none := by
  simp [alertRow, h]

/-- A transaction whose category joins nothing produces no join row. -/
theorem alertRow_none_find {cats : List Cat} {s e : List Char} {t : Txn}
    (h : cats.find? (fun c => c.name == t.category) = none) :
    alertRow cats s e t = none := by
  simp [alertRow, h]

/-- A joined category with non-positive `budget_limit` is filtered out. -/
theorem alertRow_none_nonpos {cats : List Cat} {s e : List Char} {t : Txn}
    {c2 : Cat} (hfind : cats.find? (fun c => c.name == t.category) = some c2)
    (h : ¬ 0 < c2.budget_limit) :
    alertRow cats s e t = none := by
  simp [alertRow, hfind, h]

/-- The successful join step. -/
theorem alertRow_some_eq {cats : List Cat} {s e : List Char} {t : Txn}
    {c2 : Cat}
    (hcond : (t.type == ("expense".data) && lexLe s t.date && lexLt t.date e)
      = true)
    (hfind : cats.find? (fun c => c.name == t.category) = some c2)
    (hl : 0 < c2.budget_limit) :
    alertRow cats s e t = some (t, c2) := by
  simp [alertRow, hcond, hfind, hl]

theorem alertRow_eq_some_iff {cats : List Cat} {s e : List Char} {t : Txn}
    {p : Txn × Cat} :
    alertRow cats s e t = some p
      ↔ p.1 = t
        ∧ (t.type == ("expense".data) && lexLe s t.date
            && lexLt t.date e) = true
        ∧ cats.find? (fun c => c.name == t.category) = some p.2
        ∧ 0 < p.2.budget_limit := by
  constructor
  · intro h
    cases hcond : (t.type == ("expense".data) && lexLe s t.date
        && lexLt t.date e) with
    | false => rw [alertRow_none_cond hcond] at h; cases h
    | true =>
      cases hfind : cats.find? (fun c => c.name == t.category) with
      | none => rw [alertRow_none_find hfind] at h; cases h
      | some c2 =>
        by_cases hl : 0 < c2.budget_limit
        · rw [alertRow_some_eq hcond hfind hl] at h
          injection h with h2
          subst h2
          exact ⟨rfl, rfl, rfl, hl⟩
        · rw [alertRow_none_nonpos hfind hl] at h; cases h
  · obtain ⟨p1, p2⟩ := p
    rintro ⟨hp1, hcond, hfind, hl⟩
    simp only at hp1 hfind hl
    subst hp1
    exact alertRow_some_eq hcond hfind hl

/-- Membership in the join: a `(transaction, category)` pair survives iff the
transaction passes the `WHERE` clause, the category is the first one whose
name matches, and its `budget_limit` is positive. -/
theorem mem_alertJoinRows {cats : List Cat} {s e : List Char} {txns : List Txn}
    {p : Txn × Cat} :
    p ∈ alertJoinRows cats s e txns
      ↔ p.1 ∈ txns
        ∧ (p.1.type == ("expense".data) && lexLe s p.1.date
            && lexLt p.1.date e) = true
        ∧ cats.find? (fun c => c.name == p.1.category) = some p.2
        ∧ 0 < p.2.budget_limit := by
  rw [alertJoinRows, List.mem_filterMap]
  constructor
  · rintro ⟨t, ht, hrow⟩
    obtain ⟨hp1, hcond, hfind, hl⟩ := alertRow_eq_some_iff.mp hrow
    subst hp1
    exact ⟨ht, hcond, hfind, hl⟩
  · rintro ⟨ht, hcond, hfind, hl⟩
    exact ⟨p.1, ht, alertRow_eq_some_iff.mpr ⟨rfl, hcond, hfind, hl⟩⟩

/-- Filtering the join down to one category name yields exactly that
category's in-range expense transactions, each paired with the (unique)
category record. -/
theorem alertJoinRows_filter_name {cats : List Cat} {s e : List Char}
    (hnd : (cats.map (fun c => c.name)).Nodup)
    {c : Cat} (hc : c ∈ cats) (hl : 0 < c.budget_limit) (txns : List Txn) :
    (alertJoinRows cats s e txns).filter (fun p => p.2.name == c.name)
      = (txns.filter (fun t =>
          (t.type == ("expense".data) && lexLe s t.date && lexLt t.date e)
            && t.category == c.name)).map (fun t => (t, c)) := by
  induction txns with
  | nil => rfl
  | cons t ts ih =>
    cases hcond : (t.type == ("expense".data) && lexLe s t.date
        && lexLt t.date e) with
    | false =>
      rw [alertJoinRows, List.filterMap_cons_none (alertRow_none_cond hcond),
        List.filter_cons_of_neg (by rw [hcond]; simp)]
      exact ih
    | true =>
      cases hfind : cats.find? (fun c2 => c2.name == t.category) with
      | none =>
        have hne : (t.category == c.name) = false := by
          apply beq_eq_false_iff_ne.mpr
          intro he
          have h2 := List.find?_eq_none.mp hfind c hc
          simp [he] at h2
        rw [alertJoinRows, List.filterMap_cons_none (alertRow_none_find hfind),
          List.filter_cons_of_neg (by rw [hcond, hne]; simp)]
        exact ih
      | some c2 =>
        have hc2name : c2.name = t.category := by
          simpa using List.find?_some hfind
        by_cases hl2 : 0 < c2.budget_limit
        · rw [alertJoinRows,
            List.filterMap_cons_some (alertRow_some_eq hcond hfind hl2)]
          by_cases hname : c2.name = c.name
          · have hc2c : c2 = c :=
              name_unique hnd (List.mem_of_find?_eq_some hfind) hc hname
            subst hc2c
            rw [List.filter_cons_of_pos (by simp),
              List.filter_cons_of_pos (by rw [hcond]; simp [← hc2name]),
              List.map_cons]
            exact congrArg _ ih
          · rw [List.filter_cons_of_neg (by simpa using hname),
              List.filter_cons_of_neg (by
                rw [hcond,
                  beq_eq_false_iff_ne.mpr (fun he => hname (by rw [hc2name, he]))]
                simp)]
            exact ih
        · have hne : (t.category == c.name) = false := by
            apply beq_eq_false_iff_ne.mpr
            intro he
            have hc2c : c2 = c :=
              name_unique hnd (List.mem_of_find?_eq_some hfind) hc
                (by rw [hc2name, he])
            exact hl2 (hc2c ▸ hl)
          rw [alertJoinRows,
            List.filterMap_cons_none (alertRow_none_nonpos hfind hl2),
            List.filter_cons_of_neg (by rw [hcond, hne]; simp)]
          exact ih

/-- The `spent` aggregate of the join, restricted to one category, is the
specification's per-category monthly expense total. -/
theorem joined_spent_eq (store : Store) (y m : Nat)
    (hnd : (store.categories.map (fun c => c.name)).Nodup)
    {c : Cat} (hc : c ∈ store.categories) (hl : 0 < c.budget_limit) :
    (((alertJoinRows store.categories (monthStartChars y m)
        (nextMonthStartChars y m) store.transactions).filter
          (fun p => p.2.name == c.name)).map (fun p => p.1.amount)).sum
      = spentInMonth store y m c.name := by
  rw [alertJoinRows_filter_name hnd hc hl]
  have hmm2 : ∀ (l : List Txn),
      (l.map (fun t => (t, c))).map (fun p : Txn × Cat => p.1.amount)
        = l.map (fun t => t.amount) := by
    intro l
    induction l with
    | nil => rfl
    | cons a as iha => simp only [List.map_cons, iha]
  rw [hmm2, spentInMonth, sumAmounts]
  congr 1
  congr 1
  apply List.filter_congr
  intro t _
  simp only [inMonthRange]
  exact bool_shuffle _ _ _ _

/-- Full characterization of the alert rows: an alert is produced exactly for
the categories with positive budget limit whose monthly expense total
reaches 80% of the limit, and it carries that total, the limit, and the
percentage `spent / limit * 100`. -/
theorem check_budget_alerts_spec (store : Store) (y m : Nat)
    (hnd : (store.categories.map (fun c => c.name)).Nodup) (a : Alert) :
    a ∈ check_budget_alerts store y m
      ↔ ∃ c ∈ store.categories,
          0 < c.budget_limit
          ∧ c.budget_limit * (4 / 5) ≤ spentInMonth store y m c.name
          ∧ a = { category := c.name,
                  spent := spentInMonth store y m c.name,
                  limit := c.budget_limit,
                  percentage := spentInMonth store y m c.name
                    / c.budget_limit * 100 } := by
  simp only [check_budget_alerts]
  rw [List.mem_filterMap]
  constructor
  · rintro ⟨n, hn, hg⟩
    rw [mem_dedupFirst, List.mem_map] at hn
    obtain ⟨p, hp, rfl⟩ := hn
    obtain ⟨hpmem, hpcond, hpfind, hpl⟩ := mem_alertJoinRows.mp hp
    have hc2 : p.2 ∈ store.categories := List.mem_of_find?_eq_some hpfind
    have hfind2 := find?_name_self hnd hc2
    simp only [hfind2] at hg
    rw [joined_spent_eq store y m hnd hc2 hpl] at hg
    by_cases hth :
        p.2.budget_limit * (4 / 5) ≤ spentInMonth store y m p.2.name
    · rw [if_pos (decide_eq_true hth)] at hg
      injection hg with hg2
      exact ⟨p.2, hc2, hpl, hth, hg2.symm⟩
    · rw [if_neg (by simpa using hth)] at hg
      cases hg
  · rintro ⟨c, hc, hl, hth, rfl⟩
    refine ⟨c.name, ?_, ?_⟩
    · rw [mem_dedupFirst, List.mem_map]
      have hpos : 0 < spentInMonth store y m c.name :=
        lt_of_lt_of_le (mul_pos hl (by norm_num)) hth
      have hne : store.transactions.filter
          (fun t => t.type == ("expense".data) && t.category == c.name
            && inMonthRange y m t.date) ≠ [] := by
        intro h0
        rw [spentInMonth, h0] at hpos
        simp [sumAmounts] at hpos
      obtain ⟨t, ht⟩ := List.exists_mem_of_ne_nil _ hne
      rw [List.mem_filter] at ht
      obtain ⟨htmem, htcond⟩ := ht
      simp only [inMonthRange, Bool.and_eq_true] at htcond
      obtain ⟨⟨hA, hD⟩, hB, hC⟩ := htcond
      refine ⟨(t, c), mem_alertJoinRows.mpr ⟨htmem, ?_, ?_, hl⟩, rfl⟩
      · simp only [Bool.and_eq_true]
        exact ⟨⟨hA, hB⟩, hC⟩
      · have hDe : t.category = c.name := eq_of_beq hD
        rw [hDe]
        exact find?_name_self hnd hc
    · simp only [find?_name_self hnd hc]
      rw [joined_spent_eq store y m hnd hc hl,
        if_pos (decide_eq_true hth)]


theorem alert_status_exceeded_iff {sp l : ℚ} (hl : 0 < l) :
    (alert_status (sp / l * 100) = ("[!] EXCEEDED".data)) ↔ l ≤ sp := by
  rw [alert_status]
  by_cases h : (100 : ℚ) ≤ sp / l * 100
  · rw [if_pos h]
    have hle : l ≤ sp := by
      rw [div_mul_eq_mul_div, le_div_iff₀ hl] at h
      nlinarith
    exact ⟨fun _ => hle, fun _ => rfl⟩
  · rw [if_neg h]
    constructor
    · intro he
      exact absurd he (by decide)
    · intro hls
      exfalso
      apply h
      rw [div_mul_eq_mul_div, le_div_iff₀ hl]
      nlinarith

/-- **C2** (confirmed): `get_monthly_summary` sums transaction amounts over
the half-open window `[first of month, first of next month)` — with the end
bound rolling to January of `year + 1` for December — per `type` with
default `0`, and `balance = income - expenses`; the window admits the last
day of the month and excludes the first day of the next month. -/
theorem monthly_summary_halfopen (store : Store) (y m : Nat)
    (hy1 : 1000 ≤ y) (hy2 : y ≤ 9998) (hm1 : 1 ≤ m) (hm2 : m ≤ 12) :
    (get_monthly_summary store y m).income
        = sumAmounts (store.transactions.filter
            (fun t => t.type == ("income".data) && inMonthRange y m t.date))
      ∧ (get_monthly_summary store y m).expenses
        = sumAmounts (store.transactions.filter
            (fun t => t.type == ("expense".data) && inMonthRange y m t.date))
      ∧ (get_monthly_summary store y m).balance
        = (get_monthly_summary store y m).income
            - (get_monthly_summary store y m).expenses
      ∧ inMonthRange y m (lastDayChars y m) = true
      ∧ inMonthRange y m (nextMonthStartChars y m) = false := by
  refine ⟨(get_monthly_summary_sums store y m).1,
    (get_monthly_summary_sums store y m).2, rfl, ?_, nextStart_not_in_range y m⟩
  rw [inMonthRange, monthStart_le_lastDay y hm1 hm2,
    lastDay_lt_nextStart hy1 hy2 hm1 hm2]
  rfl

theorem monthly_summary_halfopen_witness :
    inMonthRange 2024 12 (lastDayChars 2024 12) = true
      ∧ inMonthRange 2024 12 (nextMonthStartChars 2024 12) = false :=
  ⟨(monthly_summary_halfopen { transactions := [], categories := [] } 2024 12
      (by decide) (by decide) (by decide) (by decide)).2.2.2.1,
   (monthly_summary_halfopen { transactions := [], categories := [] } 2024 12
      (by decide) (by decide) (by decide) (by decide)).2.2.2.2⟩

/-- **C1** (amended): over a store whose category names are unique (the
schema's `UNIQUE` constraint), the alerts are exactly the categories — of
any `type`, not only expense-typed ones — with `budget_limit > 0` whose
monthly expense spend reaches `0.8 * budget_limit`; each alert carries
`spent`, the limit, `percentage = spent / limit * 100`, its severity label
is `EXCEEDED` iff `spent >= limit` and `WARNING` otherwise, and a category
with `budget_limit = 0` never appears regardless of spend. -/
theorem budget_alerts_characterization (store : Store) (y m : Nat)
    (hnd : (store.categories.map (fun c => c.name)).Nodup) :
    (∀ n : List Char,
        (∃ a ∈ check_budget_alerts store y m, a.category = n)
          ↔ ∃ c ∈ store.categories, c.name = n ∧ 0 < c.budget_limit
              ∧ c.budget_limit * (4 / 5) ≤ spentInMonth store y m n)
      ∧ (∀ a ∈ check_budget_alerts store y m,
          a.spent = spentInMonth store y m a.category
          ∧ a.percentage = a.spent / a.limit * 100
          ∧ (alert_status a.percentage = ("[!] EXCEEDED".data)
              ↔ a.limit ≤ a.spent)
          ∧ (alert_status a.percentage = ("[!] WARNING".data)
              ↔ ¬ a.limit ≤ a.spent))
      ∧ (∀ c ∈ store.categories, c.budget_limit = 0 →
          ∀ a ∈ check_budget_alerts store y m, a.category ≠ c.name) := by
  refine ⟨?_, ?_, ?_⟩
  · intro n
    constructor
    · rintro ⟨a, ha, rfl⟩
      obtain ⟨c, hc, hl, hth, rfl⟩ :=
        (check_budget_alerts_spec store y m hnd a).mp ha
      exact ⟨c, hc, rfl, hl, hth⟩
    · rintro ⟨c, hc, rfl, hl, hth⟩
      exact ⟨_, (check_budget_alerts_spec store y m hnd _).mpr
        ⟨c, hc, hl, hth, rfl⟩, rfl⟩
  · intro a ha
    obtain ⟨c, hc, hl, hth, rfl⟩ :=
      (check_budget_alerts_spec store y m hnd a).mp ha
    refine ⟨rfl, rfl, alert_status_exceeded_iff hl, ?_⟩
    constructor
    · intro hw hle
      have he := (alert_status_exceeded_iff hl).mpr hle
      exact absurd (he.symm.trans hw) (by decide)
    · intro hnle
      rw [alert_status]
      by_cases h100 : (100 : ℚ)
          ≤ spentInMonth store y m c.name / c.budget_limit * 100
      · exfalso
        apply hnle
        exact (alert_status_exceeded_iff hl).mp (by rw [alert_status, if_pos h100])
      · rw [if_neg h100]
  · intro c hc hc0 a ha hname
    obtain ⟨c2, hc2, hl2, _, rfl⟩ :=
      (check_budget_alerts_spec store y m hnd a).mp ha
    have he : c2 = c := name_unique hnd hc2 hc hname
    rw [he, hc0] at hl2
    exact lt_irrefl 0 hl2

theorem sampleStoreFood_alert_premise :
    ∃ c ∈ sampleStoreFood.categories, c.name = ("Food & Dining".data)
      ∧ 0 < c.budget_limit
      ∧ c.budget_limit * (4 / 5)
        ≤ spentInMonth sampleStoreFood 2024 5 ("Food & Dining".data) := by
  refine ⟨mkCat "Food & Dining" 100 "expense", by decide, rfl,
    by norm_num [mkCat], ?_⟩
  have hf : sampleStoreFood.transactions.filter
      (fun t => t.type == ("expense".data)
        && t.category == ("Food & Dining".data)
        && inMonthRange 2024 5 t.date) = sampleStoreFood.transactions := by
    decide
  rw [spentInMonth, hf]
  show (mkCat "Food & Dining" 100 "expense").budget_limit * (4 / 5)
    ≤ sumAmounts sampleStoreFood.transactions
  rw [show sumAmounts sampleStoreFood.transactions = 82 + 0 from rfl]
  norm_num [mkCat]

theorem budget_alerts_characterization_witness :
    ∃ a ∈ check_budget_alerts sampleStoreFood 2024 5,
      a.category = ("Food & Dining".data) :=
  ((budget_alerts_characterization sampleStoreFood 2024 5
      (by decide)).1 ("Food & Dining".data)).mpr sampleStoreFood_alert_premise

theorem sampleStoreSalary_alert_premise :
    ∃ c ∈ sampleStoreSalary.categories,
      0 < c.budget_limit
      ∧ c.budget_limit * (4 / 5)
        ≤ spentInMonth sampleStoreSalary 2024 5 c.name
      ∧ ({ category := c.name,
            spent := spentInMonth sampleStoreSalary 2024 5 c.name,
            limit := c.budget_limit,
            percentage := spentInMonth sampleStoreSalary 2024 5 c.name
              / c.budget_limit * 100 } : Alert)
        = { category := c.name,
            spent := spentInMonth sampleStoreSalary 2024 5 c.name,
            limit := c.budget_limit,
            percentage := spentInMonth sampleStoreSalary 2024 5 c.name
              / c.budget_limit * 100 } := by
  refine ⟨mkCat "Salary" 100 "income", by decide, by norm_num [mkCat], ?_, rfl⟩
  have hf : sampleStoreSalary.transactions.filter
      (fun t => t.type == ("expense".data)
        && t.category == (mkCat "Salary" 100 "income").name
        && inMonthRange 2024 5 t.date) = sampleStoreSalary.transactions := by
    decide
  rw [spentInMonth, hf]
  rw [show sumAmounts sampleStoreSalary.transactions = 100 + 0 from rfl]
  norm_num [mkCat]

/-- **C1 counterexample**: the `JOIN` never consults the category's own
`type`, so an income-typed category with a positive budget limit that is
spent against by expense transactions does alert — the claim's "exactly the
expense categories" reading fails. -/
theorem budget_alerts_expense_type_cex :
    (∃ a ∈ check_budget_alerts sampleStoreSalary 2024 5,
        a.category = ("Salary".data))
      ∧ ¬ (∃ c ∈ sampleStoreSalary.categories,
          c.type = ("expense".data) ∧ c.name = ("Salary".data)) := by
  constructor
  · obtain ⟨c, hc, hl, hth, heq⟩ := sampleStoreSalary_alert_premise
    refine ⟨_, (check_budget_alerts_spec sampleStoreSalary 2024 5
      (by decide) _).mpr ⟨c, hc, hl, hth, rfl⟩, ?_⟩
    rw [List.mem_singleton.mp hc]
    rfl
  · decide

/-- **C5** (amended): when the target row does not exist, both operations
succeed silently and leave the store unchanged — there is no error path at
all, let alone a `NotFoundError`. -/
theorem missing_target_silent_noop (store : Store) (tid : Nat)
    (n : List Char) (lim : ℚ)
    (hdel : ∀ t ∈ store.transactions, t.id ≠ tid)
    (hupd : ∀ c ∈ store.categories, c.name ≠ n) :
    delete_transaction store tid = store
      ∧ update_budget_limit store n lim = store := by
  obtain ⟨txns, cats⟩ := store
  constructor
  · simp only [delete_transaction]
    congr 1
    apply List.filter_eq_self.mpr
    intro t ht
    simpa using hdel t ht
  · simp only [update_budget_limit]
    congr 1
    exact map_if_name_eq_self (fun c hc => hupd c hc)

theorem missing_target_silent_noop_witness :
    delete_transaction emptyStore 7 = emptyStore
      ∧ update_budget_limit emptyStore ("No Such Category".data) 5
        = emptyStore :=
  missing_target_silent_noop emptyStore 7
    ("No Such Category".data) 5 (by decide) (by decide)

/-- **C5 counterexample**: deleting a nonexistent transaction id and
updating a nonexistent category both return normally with the store
untouched — nothing fails. -/
theorem missing_target_no_error_cex :
    delete_transaction emptyStore 1 = emptyStore
      ∧ update_budget_limit sampleStoreCatOnly
          ("No Such Category".data) 5 = sampleStoreCatOnly := by
  constructor
  · decide
  · decide

theorem sampleStoreTie_rows :
    get_category_spending sampleStoreTie
        ("2024-05-01".data) ("2024-05-31".data)
      = [(("Bravo".data), 10), (("Alpha".data), 10)] := by
  have hfil : sampleStoreTie.transactions.filter
      (fun t => t.type == ("expense".data)
        && lexLe ("2024-05-01".data) t.date
        && lexLe t.date ("2024-05-31".data)) = sampleStoreTie.transactions := by
    decide
  have hkeys : dedupFirst (sampleStoreTie.transactions.map (fun t => t.category))
      = [("Bravo".data), ("Alpha".data)] := by decide
  have hfB : sampleStoreTie.transactions.filter
      (fun t => t.category == ("Bravo".data))
      = [mkTxn 1 "2024-05-10" "x" 10 "Bravo" "expense"] := by decide
  have hfA : sampleStoreTie.transactions.filter
      (fun t => t.category == ("Alpha".data))
      = [mkTxn 2 "2024-05-11" "y" 10 "Alpha" "expense"] := by decide
  rw [get_category_spending, hfil, groupSumsBy, hkeys]
  simp only [List.map_cons, List.map_nil, hfB, hfA]
  rw [show sumAmounts [mkTxn 1 "2024-05-10" "x" 10 "Bravo" "expense"]
      = 10 + 0 from rfl,
    show sumAmounts [mkTxn 2 "2024-05-11" "y" 10 "Alpha" "expense"]
      = 10 + 0 from rfl]
  norm_num

theorem sampleStoreTie_output_ok :
    category_spending_output sampleStoreTie
        ("2024-05-01".data) ("2024-05-31".data)
        [(("Bravo".data), 10), (("Alpha".data), 10)] = true := by
  rw [category_spending_output, sampleStoreTie_rows]
  decide

theorem sampleStoreTie_alerts_empty_ok :
    budget_alerts_output sampleStoreTie 2024 5 [] = true := by
  rw [budget_alerts_output,
    show check_budget_alerts sampleStoreTie 2024 5 = [] from by decide]
  decide

/-- **C3 counterexample**: a result sequence of `get_category_spending` that
SQLite may return (it is a permutation of the grouped rows sorted by total
descending) whose equal-total ties are NOT in ascending category-name
order: the `ORDER BY total DESC` clause has no name tie-break, so the
claimed deterministic order is not guaranteed. -/
theorem category_spending_tie_cex :
    category_spending_output sampleStoreTie
        ("2024-05-01".data) ("2024-05-31".data)
        [(("Bravo".data), 10), (("Alpha".data), 10)] = true
      ∧ tieBrokenByName (fun p => p.2) (fun p => p.1)
          [(("Bravo".data), (10 : ℚ)), (("Alpha".data), 10)] = false := by
  refine ⟨sampleStoreTie_output_ok, ?_⟩
  decide

/-- **C3** (amended): every result sequence of `get_category_spending` is
sorted by total descending and contains exactly the per-category expense
sums over the range, and every result sequence of `check_budget_alerts` is
sorted by percentage descending and contains exactly the alert rows; the
relative order of rows with equal totals (resp. percentages) is
unspecified. -/
theorem ordered_outputs_sorted (store : Store) (s e : List Char) (y m : Nat)
    (outCS : List (List Char × ℚ)) (outBA : List Alert)
    (hcs : category_spending_output store s e outCS = true)
    (hba : budget_alerts_output store y m outBA = true) :
    sortedDescBy (fun p => p.2) outCS = true
      ∧ (∀ p, p ∈ outCS ↔ p ∈ get_category_spending store s e)
      ∧ sortedDescBy (fun a => a.percentage) outBA = true
      ∧ (∀ a, a ∈ outBA ↔ a ∈ check_budget_alerts store y m) := by
  rw [category_spending_output, Bool.and_eq_true] at hcs
  rw [budget_alerts_output, Bool.and_eq_true] at hba
  refine ⟨hcs.2, ?_, hba.2, ?_⟩
  · intro p
    exact (of_decide_eq_true hcs.1).mem_iff
  · intro a
    exact (of_decide_eq_true hba.1).mem_iff

theorem ordered_outputs_sorted_witness :
    sortedDescBy (fun p => (p : List Char × ℚ).2)
        [(("Bravo".data), 10), (("Alpha".data), 10)] = true
      ∧ sortedDescBy (fun a : Alert => a.percentage) [] = true :=
  ⟨(ordered_outputs_sorted sampleStoreTie ("2024-05-01".data)
      ("2024-05-31".data) 2024 5 _ _
      sampleStoreTie_output_ok sampleStoreTie_alerts_empty_ok).1,
   (ordered_outputs_sorted sampleStoreTie ("2024-05-01".data)
      ("2024-05-31".data) 2024 5 _ _
      sampleStoreTie_output_ok sampleStoreTie_alerts_empty_ok).2.2.1⟩


theorem toNat_ofNat_lt {n : Nat} (h : n < 55296) : (Char.ofNat n).toNat = n := by
  have hv : Nat.isValidChar n := Or.inl h
  rw [Char.ofNat, dif_pos hv]
  rfl

theorem lowerChar_idem (c : Char) : lowerChar (lowerChar c) = lowerChar c := by
  by_cases h : 65 ≤ c.toNat ∧ c.toNat ≤ 90
  · have h1 : lowerChar c = Char.ofNat (c.toNat + 32) := by
      rw [lowerChar, if_pos h]
    rw [h1, lowerChar, if_neg (by rw [toNat_ofNat_lt (by omega)]; omega)]
  · have h1 : lowerChar c = c := by
      rw [lowerChar, if_neg h]
    rw [h1, h1]

theorem toLowerChars_idem (l : List Char) :
    toLowerChars (toLowerChars l) = toLowerChars l := by
  induction l with
  | nil => rfl
  | cons c cs ih =>
    simp only [toLowerChars, List.map_cons] at ih ⊢
    rw [lowerChar_idem, ih]

/-- The scan either falls through to the default or returns a table name. -/
theorem scan_totality (dl : List Char)
    (table : List (List Char × List (List Char))) :
    categorizeScan dl table = ("Other Expenses".data)
      ∨ ∃ e ∈ table, categorizeScan dl table = e.1 := by
  induction table with
  | nil => exact Or.inl rfl
  | cons hd tl ih =>
    obtain ⟨cat, kws⟩ := hd
    by_cases h : kws.any (fun kw => containsSub kw dl) = true
    · exact Or.inr ⟨(cat, kws), List.mem_cons_self _ _,
        by rw [categorizeScan, if_pos h]⟩
    · rw [categorizeScan, if_neg h]
      rcases ih with h2 | ⟨e, he, h2⟩
      · exact Or.inl h2
      · exact Or.inr ⟨e, List.mem_cons_of_mem _ he, h2⟩

/-- First-match semantics: if every earlier category has no matching keyword
and this one has a match, the scan returns this one. -/
theorem scan_first (dl : List Char) :
    ∀ (pre post : List (List Char × List (List Char)))
      (cat : List Char) (kws : List (List Char)),
      (∀ e ∈ pre, e.2.any (fun kw => containsSub kw dl) = false) →
      kws.any (fun kw => containsSub kw dl) = true →
      categorizeScan dl (pre ++ (cat, kws) :: post) = cat := by
  intro pre
  induction pre with
  | nil =>
    intro post cat kws _ hk
    rw [List.nil_append, categorizeScan, if_pos hk]
  | cons e0 pre' ih =>
    intro post cat kws hpre hk
    obtain ⟨cat0, kws0⟩ := e0
    rw [List.cons_append, categorizeScan,
      if_neg (by rw [hpre (cat0, kws0) (List.mem_cons_self _ _)]; simp)]
    exact ih post cat kws
      (fun e he => hpre e (List.mem_cons_of_mem _ he)) hk

/-- A scan falling through to the default means no keyword of any category
matched (provided no category is itself named like the default). -/
theorem scan_default_kw_false (dl : List Char)
    (table : List (List Char × List (List Char)))
    (hscan : categorizeScan dl table = ("Other Expenses".data))
    (hnames : ∀ e ∈ table, e.1 ≠ ("Other Expenses".data)) :
    ∀ kw, (∃ e ∈ table, kw ∈ e.2) → containsSub kw dl = false := by
  induction table with
  | nil =>
    rintro kw ⟨e, he, _⟩
    cases he
  | cons hd tl ih =>
    obtain ⟨cat, kws⟩ := hd
    by_cases h : kws.any (fun kw => containsSub kw dl) = true
    · rw [categorizeScan, if_pos h] at hscan
      exact absurd hscan (hnames (cat, kws) (List.mem_cons_self _ _))
    · rw [categorizeScan, if_neg h] at hscan
      have hf : kws.any (fun kw => containsSub kw dl) = false := by
        simpa using h
      rintro kw ⟨e, he, hkw⟩
      rcases List.mem_cons.mp he with rfl | he2
      · have := List.any_eq_false.mp hf kw hkw
        simpa using this
      · exact ih hscan (fun e2 he2 => hnames e2 (List.mem_cons_of_mem _ he2))
          kw ⟨e, he2, hkw⟩

/-- **C8** (confirmed): `categorize` lowercases its input (so it is
case-insensitive), scans the rule table in insertion order returning the
first category one of whose keywords occurs as a substring, is total with
default `Other Expenses`, and classifies the Starbucks examples as
`Food & Dining`. -/
theorem categorize_spec :
    (∀ d, categorize d = categorize (toLowerChars d))
      ∧ (∀ d, categorize d = ("Other Expenses".data)
          ∨ ∃ e ∈ category_keywords, categorize d = e.1)
      ∧ (∀ (d : List Char) (pre post : List (List Char × List (List Char)))
          (cat : List Char) (kws : List (List Char)),
          category_keywords = pre ++ (cat, kws) :: post →
          (∀ e ∈ pre,
            e.2.any (fun kw => containsSub kw (toLowerChars d)) = false) →
          kws.any (fun kw => containsSub kw (toLowerChars d)) = true →
          categorize d = cat)
      ∧ categorize ("STARBUCKS COFFEE".data) = ("Food & Dining".data)
      ∧ categorize ("starbucks coffee".data) = ("Food & Dining".data) := by
  refine ⟨?_, ?_, ?_, by decide, by decide⟩
  · intro d
    rw [categorize, categorize, toLowerChars_idem]
  · intro d
    exact scan_totality (toLowerChars d) category_keywords
  · intro d pre post cat kws htab hpre hk
    rw [categorize, htab]
    exact scan_first (toLowerChars d) pre post cat kws hpre hk

theorem categorize_spec_witness :
    categorize ("STARBUCKS COFFEE".data) = ("Food & Dining".data) :=
  categorize_spec.2.2.1 ("STARBUCKS COFFEE".data) []
    category_keywords.tail ("Food & Dining".data)
    [("restaurant".data), ("cafe".data), ("food".data), ("grocery".data),
     ("supermarket".data), ("starbucks".data), ("mcdonald".data),
     ("pizza".data), ("burger".data), ("delivery".data), ("uber eats".data),
     ("doordash".data), ("grubhub".data), ("dining".data)]
    rfl (by decide) (by decide)

/-- **C9** (confirmed): if the base category starts with `Other`, a positive
amount is re-classified to `Other Income`: the `Salary`/`Freelance`
branches of `get_suggested_category` cannot fire, because each word they
test is already a keyword of the `Salary` or `Freelance` table entries, so
a description containing one would not have classified as an `Other`
category. -/
theorem suggested_other_income (d : List Char) (a : ℚ) (ha : 0 < a)
    (hother : (("Other".data).isPrefixOf (categorize d)) = true) :
    get_suggested_category d a = ("Other Income".data) := by
  have hbase : categorize d = ("Other Expenses".data) := by
    rcases scan_totality (toLowerChars d) category_keywords with h | ⟨e, he, h⟩
    · exact h
    · exfalso
      have hpre : ∀ e2 ∈ category_keywords,
          (("Other".data).isPrefixOf e2.1) = false := by decide
      rw [categorize] at hother
      rw [h] at hother
      rw [hpre e he] at hother
      cases hother
  have hkwf := scan_default_kw_false (toLowerChars d) category_keywords
    hbase (by decide)
  have hsal : containsSub ("salary".data) (toLowerChars d) = false :=
    hkwf _ (by decide)
  have hpay : containsSub ("payroll".data) (toLowerChars d) = false :=
    hkwf _ (by decide)
  have hemp : containsSub ("employer".data) (toLowerChars d) = false :=
    hkwf _ (by decide)
  have hfre : containsSub ("freelance".data) (toLowerChars d) = false :=
    hkwf _ (by decide)
  have hcon : containsSub ("consulting".data) (toLowerChars d) = false :=
    hkwf _ (by decide)
  have htr : containsSub ("contract".data) (toLowerChars d) = false :=
    hkwf _ (by decide)
  rw [get_suggested_category]
  rw [hbase, decide_eq_true ha,
    show (("Other".data).isPrefixOf ("Other Expenses".data)) = true
      from by decide]
  simp only [Bool.and_self, if_true]
  rw [show ([("salary".data), ("payroll".data), ("employer".data)].any
      (fun w => containsSub w (toLowerChars d))) = false
      from by simp [hsal, hpay, hemp]]
  rw [show ([("freelance".data), ("consulting".data), ("contract".data)].any
      (fun w => containsSub w (toLowerChars d))) = false
      from by simp [hfre, hcon, htr]]
  simp

theorem suggested_other_income_witness :
    (0 : ℚ) < 1
      ∧ get_suggested_category ("zzz".data) 1 = ("Other Income".data) :=
  ⟨by decide, suggested_other_income ("zzz".data) 1 (by decide) (by decide)⟩


theorem stripChars_cons_space (l : List Char) :
    stripChars (' ' :: l) = stripChars l := by
  rw [stripChars, stripChars, List.dropWhile_cons, if_pos (by decide)]

theorem stripChars_append_space (l : List Char) :
    stripChars (l ++ [' ']) = stripChars l := by
  rw [stripChars, stripChars, List.dropWhile_append]
  by_cases h : (l.dropWhile isSpaceChar).isEmpty = true
  · rw [if_pos h, List.isEmpty_iff.mp h]
    rfl
  · rw [if_neg h, List.reverse_append]
    rfl

/-- **C7** (confirmed): `_parse_amount` ignores surrounding whitespace,
strips the currency symbols and comma separators, negates a parenthesised
value, fails on a remainder that is not a decimal number, and satisfies the
specification's concrete examples. -/
theorem parse_amount_spec :
    (∀ l, parse_amount (' ' :: l) = parse_amount l)
      ∧ (∀ l, parse_amount (l ++ [' ']) = parse_amount l)
      ∧ parse_amount ("$1,234.56".data) = some (1234.56 : ℚ)
      ∧ parse_amount ("€1,234.56".data) = some (1234.56 : ℚ)
      ∧ parse_amount ("£1,234.56".data) = some (1234.56 : ℚ)
      ∧ parse_amount ("(45.00)".data) = some (-45 : ℚ)
      ∧ parse_amount ("$(1,234.56)".data) = some (-1234.56 : ℚ)
      ∧ parse_amount ("abc".data) = none
      ∧ parse_amount ("".data) = none := by
  have hpos : ∀ l, amountClean l = ("1234.56".data) →
      parse_amount l = some (1234.56 : ℚ) := by
    intro l hc
    rw [parse_amount, hc]
    rw [show pyFloat ("1234.56".data)
        = some ((1 : ℚ) * ((digitsVal ("1234".data) : ℚ)
          + (digitsVal ("56".data) : ℚ) / 10 ^ ("56".data).length))
        from rfl]
    rw [show digitsVal ("1234".data) = 1234 from rfl,
      show digitsVal ("56".data) = 56 from rfl,
      show ("56".data).length = 2 from rfl]
    refine congrArg some ?_
    norm_num
  have hneg : ∀ l, amountClean l = ("-1234.56".data) →
      parse_amount l = some (-1234.56 : ℚ) := by
    intro l hc
    rw [parse_amount, hc]
    rw [show pyFloat ("-1234.56".data)
        = some ((-1 : ℚ) * ((digitsVal ("1234".data) : ℚ)
          + (digitsVal ("56".data) : ℚ) / 10 ^ ("56".data).length))
        from rfl]
    rw [show digitsVal ("1234".data) = 1234 from rfl,
      show digitsVal ("56".data) = 56 from rfl,
      show ("56".data).length = 2 from rfl]
    refine congrArg some ?_
    norm_num
  refine ⟨?_, ?_, ?_, ?_, ?_, ?_, ?_, ?_, ?_⟩
  · intro l
    rw [parse_amount, parse_amount, amountClean, amountClean,
      stripChars_cons_space]
  · intro l
    rw [parse_amount, parse_amount, amountClean, amountClean,
      stripChars_append_space]
  · exact hpos _ (by decide)
  · exact hpos _ (by decide)
  · exact hpos _ (by decide)
  · rw [parse_amount, show amountClean ("(45.00)".data) = ("-45.00".data)
      from by decide]
    rw [show pyFloat ("-45.00".data)
        = some ((-1 : ℚ) * ((digitsVal ("45".data) : ℚ)
          + (digitsVal ("00".data) : ℚ) / 10 ^ ("00".data).length))
        from rfl]
    rw [show digitsVal ("45".data) = 45 from rfl,
      show digitsVal ("00".data) = 0 from rfl,
      show ("00".data).length = 2 from rfl]
    refine congrArg some ?_
    norm_num
  · exact hneg _ (by decide)
  · rfl
  · rfl


theorem dc_isDigit {k : Nat} (h : k < 10) : (dc k).isDigit = true := by
  interval_cases k <;> decide

theorem dc_toNat {k : Nat} (h : k < 10) : (dc k).toNat = 48 + k := by
  interval_cases k <;> decide

theorem dc_not_space {k : Nat} (h : k < 10) : isSpaceChar (dc k) = false := by
  interval_cases k <;> decide

theorem p2_low {m : Nat} (h : m < 10) : p2 m = ['0', dc m] := by
  rw [p2, if_pos h]

theorem p2_high {m : Nat} (h1 : 10 ≤ m) (h2 : m ≤ 99) :
    p2 m = [dc (m / 10), dc (m % 10)] := by
  rw [p2, if_neg (by omega), pyNat_ge10 h1, pyNat_lt10 (by omega)]
  rfl

theorem pyNat4 {y : Nat} (h1 : 1000 ≤ y) (h2 : y ≤ 9999) :
    pyNat y = [dc (y / 1000), dc (y / 100 % 10), dc (y / 10 % 10),
      dc (y % 10)] := by
  rw [pyNat_ge10 (by omega), pyNat_ge10 (show 10 ≤ y / 10 by omega),
    pyNat_ge10 (show 10 ≤ y / 10 / 10 by omega),
    pyNat_lt10 (show y / 10 / 10 / 10 < 10 by omega)]
  have e1 : y / 10 / 10 / 10 = y / 1000 := by omega
  have e2 : y / 10 / 10 = y / 100 := by omega
  rw [e1, e2]
  rfl

theorem matchY_pyNat {y : Nat} (h1 : 1000 ≤ y) (h2 : y ≤ 9999)
    (rest : List Char) :
    matchY (pyNat y ++ rest) = [(y, rest)] := by
  rw [pyNat4 h1 h2]
  have ha := dc_isDigit (show y / 1000 < 10 by omega)
  have hb := dc_isDigit (show y / 100 % 10 < 10 by omega)
  have hc := dc_isDigit (show y / 10 % 10 < 10 by omega)
  have he := dc_isDigit (show y % 10 < 10 by omega)
  have hv : dv (dc (y / 1000)) * 1000 + dv (dc (y / 100 % 10)) * 100
      + dv (dc (y / 10 % 10)) * 10 + dv (dc (y % 10)) = y := by
    rw [dv_dc (by omega), dv_dc (by omega), dv_dc (by omega),
      dv_dc (by omega)]
    omega
  simp only [List.cons_append, List.nil_append, matchY, ha, hb, hc, he,
    Bool.and_self, if_true, hv]

theorem matchLit_cons_self (c : Char) (rest : List Char) :
    matchLit c (c :: rest) = [rest] := by
  simp [matchLit]

theorem matchLit_cons_ne {a c : Char} (h : (a == c) = false)
    (rest : List Char) :
    matchLit c (a :: rest) = [] := by
  simp [matchLit, h]

theorem matchM_p2_low {m : Nat} (h1 : 1 ≤ m) (h2 : m ≤ 9)
    (rest : List Char) :
    matchM (p2 m ++ rest) = [(m, rest)] := by
  rw [p2_low (by omega)]
  have hb1 : 49 ≤ (dc m).toNat := by rw [dc_toNat (by omega)]; omega
  have hb2 : (dc m).toNat ≤ 57 := by rw [dc_toNat (by omega)]; omega
  simp only [List.cons_append, matchM]
  simp [hb1, hb2, dv_dc (show m < 10 by omega)]

theorem matchM_p2_high {m : Nat} (h1 : 10 ≤ m) (h2 : m ≤ 12)
    (rest : List Char) :
    matchM (p2 m ++ rest) = [(m, rest), (1, dc (m % 10) :: rest)] := by
  rw [p2_high (by omega) (by omega)]
  have hd1 : dc (m / 10) = '1' := by
    have : m / 10 = 1 := by omega
    rw [this]
    rfl
  have hb1 : 48 ≤ (dc (m % 10)).toNat := by rw [dc_toNat (by omega)]; omega
  have hb2 : (dc (m % 10)).toNat ≤ 50 := by rw [dc_toNat (by omega)]; omega
  have hv : 10 + dv (dc (m % 10)) = m := by rw [dv_dc (by omega)]; omega
  simp only [List.cons_append, matchM, hd1]
  simp [hb1, hb2, hv, show dv '1' = 1 from by decide]

theorem matchD_p2_low {d : Nat} (h1 : 1 ≤ d) (h2 : d ≤ 9)
    (rest : List Char) :
    matchD (p2 d ++ rest) = [(d, rest)] := by
  rw [p2_low (by omega)]
  have hb1 : 49 ≤ (dc d).toNat := by rw [dc_toNat (by omega)]; omega
  have hb2 : (dc d).toNat ≤ 57 := by rw [dc_toNat (by omega)]; omega
  simp only [List.cons_append, matchD]
  simp [hb1, hb2, dv_dc (show d < 10 by omega)]

theorem matchD_p2_mid {d : Nat} (h1 : 10 ≤ d) (h2 : d ≤ 29)
    (rest : List Char) :
    matchD (p2 d ++ rest) = [(d, rest), (d / 10, dc (d % 10) :: rest)] := by
  rw [p2_high (by omega) (by omega)]
  have hd10 : d / 10 = 1 ∨ d / 10 = 2 := by omega
  have hdig := dc_isDigit (show d % 10 < 10 by omega)
  rcases hd10 with h10 | h10
  · have hv : 10 + dv (dc (d % 10)) = d := by rw [dv_dc (by omega)]; omega
    rw [h10]
    simp only [List.cons_append, matchD, show dc 1 = '1' from rfl]
    simp [hdig, hv, h10, show dv '1' = 1 from by decide]
  · have hv : 20 + dv (dc (d % 10)) = d := by rw [dv_dc (by omega)]; omega
    rw [h10]
    simp only [List.cons_append, matchD, show dc 2 = '2' from rfl]
    simp [hdig, hv, h10, show dv '2' = 2 from by decide]

theorem matchD_p2_high {d : Nat} (h1 : 30 ≤ d) (h2 : d ≤ 31)
    (rest : List Char) :
    matchD (p2 d ++ rest) = [(d, rest), (3, dc (d % 10) :: rest)] := by
  rw [p2_high (by omega) (by omega)]
  have hd10 : d / 10 = 3 := by omega
  have hb1 : 48 ≤ (dc (d % 10)).toNat := by rw [dc_toNat (by omega)]; omega
  have hb2 : (dc (d % 10)).toNat ≤ 49 := by rw [dc_toNat (by omega)]; omega
  have hv : 30 + dv (dc (d % 10)) = d := by rw [dv_dc (by omega)]; omega
  rw [hd10]
  simp only [List.cons_append, matchD, show dc 3 = '3' from rfl]
  simp [hb1, hb2, hv, show dv '3' = 3 from by decide]


theorem dc_beq_dash {k : Nat} (h : k < 10) : ((dc k) == '-') = false := by
  interval_cases k <;> decide

theorem dc_beq_slash {k : Nat} (h : k < 10) : ((dc k) == '/') = false := by
  interval_cases k <;> decide

theorem dc_beq_comma {k : Nat} (h : k < 10) : ((dc k) == ',') = false := by
  interval_cases k <;> decide

theorem flatMap_nil_of {α β : Type} {l : List α} {f : α → List β}
    (h : ∀ a ∈ l, f a = []) : l.flatMap f = [] := by
  induction l with
  | nil => rfl
  | cons a as ih =>
    rw [List.flatMap_cons, h a (List.mem_cons_self _ _),
      ih (fun a2 ha2 => h a2 (List.mem_cons_of_mem _ ha2))]
    rfl

theorem matchM_consume {s : List Char} {p : Nat × List Char}
    (hp : p ∈ matchM s) : p.2 = s.drop 1 ∨ p.2 = s.drop 2 := by
  match s with
  | [] => cases hp
  | [a] =>
    rw [show matchM [a]
        = if decide (49 ≤ a.toNat) && decide (a.toNat ≤ 57)
          then [(dv a, [])] else [] from rfl] at hp
    by_cases h : (decide (49 ≤ a.toNat) && decide (a.toNat ≤ 57)) = true
    · rw [if_pos h] at hp
      rcases List.mem_singleton.mp hp with rfl
      exact Or.inl rfl
    · rw [if_neg h] at hp
      cases hp
  | a :: b :: rest =>
    rw [matchM] at hp
    rcases List.mem_append.mp hp with hp1 | hp2
    · rcases List.mem_append.mp hp1 with hp3 | hp4
      · split at hp3
        · rcases List.mem_singleton.mp hp3 with rfl
          exact Or.inr rfl
        · cases hp3
      · split at hp4
        · rcases List.mem_singleton.mp hp4 with rfl
          exact Or.inr rfl
        · cases hp4
    · split at hp2
      · rcases List.mem_singleton.mp hp2 with rfl
        exact Or.inl rfl
      · cases hp2

theorem matchD_consume {s : List Char} {p : Nat × List Char}
    (hp : p ∈ matchD s) : p.2 = s.drop 1 ∨ p.2 = s.drop 2 := by
  match s with
  | [] => cases hp
  | [a] =>
    rw [show matchD [a]
        = if decide (49 ≤ a.toNat) && decide (a.toNat ≤ 57)
          then [(dv a, [])] else [] from rfl] at hp
    by_cases h : (decide (49 ≤ a.toNat) && decide (a.toNat ≤ 57)) = true
    · rw [if_pos h] at hp
      rcases List.mem_singleton.mp hp with rfl
      exact Or.inl rfl
    · rw [if_neg h] at hp
      cases hp
  | a :: b :: rest =>
    rw [matchD] at hp
    rcases List.mem_append.mp hp with hp1 | hp2
    · rcases List.mem_append.mp hp1 with hp3 | hp4
      · rcases List.mem_append.mp hp3 with hp5 | hp6
        · split at hp5
          · rcases List.mem_singleton.mp hp5 with rfl
            exact Or.inr rfl
          · cases hp5
        · split at hp6
          · rcases List.mem_singleton.mp hp6 with rfl
            exact Or.inr rfl
          · cases hp6
      · split at hp4
        · rcases List.mem_singleton.mp hp4 with rfl
          exact Or.inr rfl
        · cases hp4
    · split at hp2
      · rcases List.mem_singleton.mp hp2 with rfl
        exact Or.inl rfl
      · cases hp2

theorem parseYMDsep_nil {sep : Char} {s : List Char} (h : matchY s = []) :
    parseYMDsep sep s = [] := by
  rw [parseYMDsep, h]
  rfl

theorem parseMDYsep_nil {sep : Char} {s : List Char} (h : matchM s = []) :
    parseMDYsep sep s = [] := by
  rw [parseMDYsep, h]
  rfl

theorem parseDMYsep_nil {sep : Char} {s : List Char} (h : matchD s = []) :
    parseDMYsep sep s = [] := by
  rw [parseDMYsep, h]
  rfl

theorem parseNameFmt_nil {names : List (Nat × List Char)} {s : List Char}
    (h : matchNames names s = []) :
    parseNameFmt names s = [] := by
  rw [parseNameFmt, h]
  rfl

theorem parseMDYsep_nil2 {sep : Char} {s : List Char}
    (h1 : matchLit sep (s.drop 1) = []) (h2 : matchLit sep (s.drop 2) = []) :
    parseMDYsep sep s = [] := by
  rw [parseMDYsep]
  apply flatMap_nil_of
  intro p hp
  rcases matchM_consume hp with h | h <;> rw [h]
  · rw [h1]
    rfl
  · rw [h2]
    rfl

theorem parseDMYsep_nil2 {sep : Char} {s : List Char}
    (h1 : matchLit sep (s.drop 1) = []) (h2 : matchLit sep (s.drop 2) = []) :
    parseDMYsep sep s = [] := by
  rw [parseDMYsep]
  apply flatMap_nil_of
  intro p hp
  rcases matchD_consume hp with h | h <;> rw [h]
  · rw [h1]
    rfl
  · rw [h2]
    rfl

theorem parseYMDsep_nil3 {sep : Char} {y : Nat} {rest : List Char}
    (h1 : 1000 ≤ y) (h2 : y ≤ 9999) (h : matchLit sep rest = []) :
    parseYMDsep sep (pyNat y ++ rest) = [] := by
  rw [parseYMDsep, matchY_pyNat h1 h2]
  simp [h]

theorem validDate_true {y m d : Nat} (h1 : 1 ≤ y) (h2 : y ≤ 9999)
    (h3 : 1 ≤ m) (h4 : m ≤ 12) (h5 : 1 ≤ d) (h6 : d ≤ daysInMonth y m) :
    validDate (y, m, d) = true := by
  simp [validDate, h1, h2, h3, h4, h5, h6]

theorem tryFormat_head {cands : List (Nat × Nat × Nat)} {t : Nat × Nat × Nat}
    (h : cands.head? = some t) :
    tryFormat cands = if validDate t then some t else none := by
  cases cands with
  | nil => cases h
  | cons a l =>
    rw [List.head?_cons] at h
    injection h with h
    subst h
    rfl

theorem p4_eq_pyNat {y : Nat} (h : 1000 ≤ y) : p4 y = pyNat y := by
  rw [p4, if_neg (by omega), if_neg (by omega), if_neg (by omega)]

theorem matchWS_single {c : Char} (h : isSpaceChar c = false)
    (rest : List Char) :
    matchWS (' ' :: c :: rest) = [c :: rest] := by
  rw [matchWS]
  simp only [List.takeWhile_cons]
  rw [if_pos (by decide), if_neg (by simp [h])]
  rfl

/-- A month rendered as a day 13-31 only matches `%m` through the
single-digit `[1-9]` alternative. -/
theorem matchM_p2_day_high {d : Nat} (h1 : 13 ≤ d) (h2 : d ≤ 31)
    (rest : List Char) :
    matchM (p2 d ++ rest) = [(d / 10, dc (d % 10) :: rest)] := by
  rw [p2_high (by omega) (by omega)]
  have hv : dv (dc (d / 10)) = d / 10 := dv_dc (by omega)
  have hd10 : d / 10 = 1 ∨ d / 10 = 2 ∨ d / 10 = 3 := by omega
  rcases hd10 with h10 | h10 | h10
  · have hm10 : 3 ≤ d % 10 := by omega
    have hb : ¬ (dc (d % 10)).toNat ≤ 50 := by
      rw [dc_toNat (by omega)]
      omega
    rw [h10] at hv ⊢
    simp only [List.cons_append, matchM, show dc 1 = '1' from rfl]
    simp [hb, hv, show dv '1' = 1 from by decide]
  · rw [h10] at hv ⊢
    simp only [List.cons_append, matchM, show dc 2 = '2' from rfl]
    simp [hv, show dv '2' = 2 from by decide]
  · rw [h10] at hv ⊢
    simp only [List.cons_append, matchM, show dc 3 = '3' from rfl]
    simp [hv, show dv '3' = 3 from by decide]

theorem stripChars_eq_self {l : List Char}
    (h1 : ∀ c, l.head? = some c → isSpaceChar c = false)
    (h2 : ∀ c, l.getLast? = some c → isSpaceChar c = false) :
    stripChars l = l := by
  have hd : l.dropWhile isSpaceChar = l := by
    cases l with
    | nil => rfl
    | cons a as => rw [List.dropWhile_cons, if_neg (by simp [h1 a rfl])]
  rw [stripChars, hd]
  have hr : (l.reverse).dropWhile isSpaceChar = l.reverse := by
    cases hrev : l.reverse with
    | nil => rfl
    | cons a as =>
      have hg : l.getLast? = some a := by
        rw [← List.head?_reverse, hrev]
        rfl
      rw [List.dropWhile_cons, if_neg (by simp [h2 a hg])]
  rw [hr, List.reverse_reverse]


theorem p2_eq {n : Nat} (h : n ≤ 99) : p2 n = [dc (n / 10), dc (n % 10)] := by
  by_cases h10 : n < 10
  · rw [p2_low h10, Nat.mod_eq_of_lt h10, show n / 10 = 0 from by omega]
    rfl
  · exact p2_high (by omega) h

theorem daysInMonth_ge_28 (y : Nat) {m : Nat} (h1 : 1 ≤ m) (h2 : m ≤ 12) :
    28 ≤ daysInMonth y m := by
  interval_cases m <;> simp [daysInMonth] <;> split <;> omega

theorem daysInMonth_le_31 (y m : Nat) : daysInMonth y m ≤ 31 := by
  match m with
  | 0 => exact Nat.zero_le 31
  | 1 => exact Nat.le_refl 31
  | 2 =>
    show (if isLeap y then 29 else 28) ≤ 31
    split <;> omega
  | 3 => exact Nat.le_refl 31
  | 4 => exact Nat.le_succ 30
  | 5 => exact Nat.le_refl 31
  | 6 => exact Nat.le_succ 30
  | 7 => exact Nat.le_refl 31
  | 8 => exact Nat.le_refl 31
  | 9 => exact Nat.le_succ 30
  | 10 => exact Nat.le_refl 31
  | 11 => exact Nat.le_succ 30
  | 12 => exact Nat.le_refl 31
  | n + 13 => exact Nat.zero_le 31

theorem matchY_nil_first {a : Char} (h : a.isDigit = false) (r : List Char) :
    matchY (a :: r) = [] := by
  match r with
  | [] => rfl
  | [b] => rfl
  | [b, c] => rfl
  | b :: c :: e :: t => simp [matchY, h]

theorem matchY_nil_third {a b c : Char} (h : c.isDigit = false) (r : List Char) :
    matchY (a :: b :: c :: r) = [] := by
  match r with
  | [] => rfl
  | e :: t => simp [matchY, h]

theorem matchM_nil_first {a : Char} (h0 : (a == '0') = false)
    (h1 : (a == '1') = false)
    (h2 : (decide (49 ≤ a.toNat) && decide (a.toNat ≤ 57)) = false)
    (r : List Char) :
    matchM (a :: r) = [] := by
  match r with
  | [] =>
    simp only [show matchM [a]
      = if decide (49 ≤ a.toNat) && decide (a.toNat ≤ 57)
        then [(dv a, ([] : List Char))] else [] from rfl, h2]
    rfl
  | b :: t =>
    simp only [matchM, h0, h1, h2, Bool.false_and]
    rfl

theorem matchD_nil_first {a : Char} (h3 : (a == '3') = false)
    (h1 : (a == '1') = false) (h2c : (a == '2') = false)
    (h0 : (a == '0') = false)
    (hr : (decide (49 ≤ a.toNat) && decide (a.toNat ≤ 57)) = false)
    (r : List Char) :
    matchD (a :: r) = [] := by
  match r with
  | [] =>
    simp only [show matchD [a]
      = if decide (49 ≤ a.toNat) && decide (a.toNat ≤ 57)
        then [(dv a, ([] : List Char))] else [] from rfl, hr]
    rfl
  | b :: t =>
    simp only [matchD, h3, h1, h2c, h0, hr, Bool.false_and, Bool.false_or]
    rfl

theorem dcs_ne_dash : ∀ k, k < 10 → (dc k == '-') = false :=
  fun _ hk => dc_beq_dash hk

theorem dcs_ne_slash : ∀ k, k < 10 → (dc k == '/') = false :=
  fun _ hk => dc_beq_slash hk

/-- A day 13-31 in front position kills the `%m<sep>%d<sep>%Y` format: the
month regex only takes one digit and the separator then mismatches. -/
theorem parseMDYsep_nil_day_high {d : Nat} (h1 : 13 ≤ d) (h2 : d ≤ 31)
    {sep : Char} (hsep : ∀ k, k < 10 → (dc k == sep) = false)
    (rest : List Char) :
    parseMDYsep sep (p2 d ++ sep :: rest) = [] := by
  rw [parseMDYsep, matchM_p2_day_high h1 h2]
  simp only [List.flatMap_cons, List.flatMap_nil, List.append_nil,
    matchLit_cons_ne (hsep (d % 10) (by omega))]

theorem matchLit_drops_4dig {c : Char} {y : Nat} (h1 : 1000 ≤ y)
    (h2 : y ≤ 9999) (hc : ∀ k, k < 10 → (dc k == c) = false)
    (rest : List Char) :
    matchLit c ((pyNat y ++ rest).drop 1) = []
      ∧ matchLit c ((pyNat y ++ rest).drop 2) = [] := by
  rw [pyNat4 h1 h2]
  exact ⟨matchLit_cons_ne (hc _ (by omega)) _,
    matchLit_cons_ne (hc _ (by omega)) _⟩

theorem matchLit_drops_2dig {c sep2 : Char} {k : Nat} (hk : k ≤ 99)
    (hc1 : (dc (k % 10) == c) = false) (hc2 : (sep2 == c) = false)
    (rest : List Char) :
    matchLit c ((p2 k ++ sep2 :: rest).drop 1) = []
      ∧ matchLit c ((p2 k ++ sep2 :: rest).drop 2) = [] := by
  rw [p2_eq hk]
  exact ⟨matchLit_cons_ne hc1 _, matchLit_cons_ne hc2 _⟩

theorem head?_p2_append {n : Nat} (h : n ≤ 99) (rest : List Char) :
    (p2 n ++ rest).head? = some (dc (n / 10)) := by
  rw [p2_eq h]
  rfl

theorem head?_pyNat_append {y : Nat} (h1 : 1000 ≤ y) (h2 : y ≤ 9999)
    (rest : List Char) :
    (pyNat y ++ rest).head? = some (dc (y / 1000)) := by
  rw [pyNat4 h1 h2]
  rfl

theorem getLast?_append_p2 {n : Nat} (h : n ≤ 99) (pre : List Char) :
    (pre ++ p2 n).getLast? = some (dc (n % 10)) := by
  rw [p2_eq h, show pre ++ [dc (n / 10), dc (n % 10)]
    = (pre ++ [dc (n / 10)]) ++ [dc (n % 10)] from by simp]
  exact List.getLast?_concat _

theorem getLast?_append_pyNat {y : Nat} (h1 : 1000 ≤ y) (h2 : y ≤ 9999)
    (pre : List Char) :
    (pre ++ pyNat y).getLast? = some (dc (y % 10)) := by
  rw [pyNat4 h1 h2, show pre ++ [dc (y / 1000), dc (y / 100 % 10),
      dc (y / 10 % 10), dc (y % 10)]
    = (pre ++ [dc (y / 1000), dc (y / 100 % 10), dc (y / 10 % 10)])
      ++ [dc (y % 10)] from by simp]
  exact List.getLast?_concat _

theorem strip_fmtYMDsep {sep : Char} {y m d : Nat} (hy1 : 1000 ≤ y)
    (hy2 : y ≤ 9999) (hd : d ≤ 99) :
    stripChars (fmtYMDsep sep y m d) = fmtYMDsep sep y m d := by
  apply stripChars_eq_self
  · intro c hc
    rw [fmtYMDsep] at hc
    simp only [List.append_assoc, List.cons_append] at hc
    rw [head?_pyNat_append hy1 hy2] at hc
    injection hc with hc
    subst hc
    exact dc_not_space (by omega)
  · intro c hc
    rw [show fmtYMDsep sep y m d
      = (pyNat y ++ sep :: p2 m ++ [sep]) ++ p2 d from by
        rw [fmtYMDsep]; simp, getLast?_append_p2 hd] at hc
    injection hc with hc
    subst hc
    exact dc_not_space (by omega)

theorem strip_fmtMDYsep {sep : Char} {y m d : Nat} (hy1 : 1000 ≤ y)
    (hy2 : y ≤ 9999) (hm : m ≤ 99) :
    stripChars (fmtMDYsep sep y m d) = fmtMDYsep sep y m d := by
  apply stripChars_eq_self
  · intro c hc
    rw [fmtMDYsep] at hc
    simp only [List.append_assoc, List.cons_append] at hc
    rw [head?_p2_append hm] at hc
    injection hc with hc
    subst hc
    exact dc_not_space (by omega)
  · intro c hc
    rw [show fmtMDYsep sep y m d
      = (p2 m ++ sep :: p2 d ++ [sep]) ++ pyNat y from by
        rw [fmtMDYsep]; simp, getLast?_append_pyNat hy1 hy2] at hc
    injection hc with hc
    subst hc
    exact dc_not_space (by omega)

theorem matchY_pyNat_finish {y : Nat} (h1 : 1000 ≤ y) (h2 : y ≤ 9999)
    {α : Type} (f : Nat → α) :
    (matchY (pyNat y)).flatMap (fun p3 =>
      if p3.2.isEmpty then [f p3.1] else []) = [f y] := by
  have e := matchY_pyNat h1 h2 []
  rw [List.append_nil] at e
  rw [e]
  simp

theorem matchD_p2_finish {d : Nat} (h1 : 1 ≤ d) (h2 : d ≤ 31) {α : Type}
    (f : Nat → α) :
    (matchD (p2 d)).flatMap (fun p3 =>
      if p3.2.isEmpty then [f p3.1] else []) = [f d] := by
  by_cases h9 : d ≤ 9
  · have e := matchD_p2_low h1 h9 []
    rw [List.append_nil] at e
    rw [e]
    simp
  · by_cases h29 : d ≤ 29
    · have e := matchD_p2_mid (by omega) h29 []
      rw [List.append_nil] at e
      rw [e]
      simp
    · have e := matchD_p2_high (by omega) h2 []
      rw [List.append_nil] at e
      rw [e]
      simp

theorem matchD_sep_Y_stage {sep : Char}
    (hsep : ∀ k, k < 10 → (dc k == sep) = false) {y d : Nat}
    (hy1 : 1000 ≤ y) (hy2 : y ≤ 9999) (hd1 : 1 ≤ d) (hd2 : d ≤ 31)
    {α : Type} (f : Nat → Nat → α) :
    (matchD (p2 d ++ sep :: pyNat y)).flatMap (fun p =>
      (matchLit sep p.2).flatMap (fun r4 =>
        (matchY r4).flatMap (fun p3 =>
          if p3.2.isEmpty then [f p3.1 p.1] else []))) = [f y d] := by
  by_cases h9 : d ≤ 9
  · rw [matchD_p2_low hd1 h9]
    simp only [List.flatMap_cons, List.flatMap_nil, List.append_nil]
    rw [matchLit_cons_self]
    simp only [List.flatMap_cons, List.flatMap_nil, List.append_nil]
    exact matchY_pyNat_finish hy1 hy2 (fun yy => f yy d)
  · by_cases h29 : d ≤ 29
    · rw [matchD_p2_mid (by omega) h29]
      simp only [List.flatMap_cons, List.flatMap_nil, List.append_nil]
      rw [matchLit_cons_self, matchLit_cons_ne (hsep _ (by omega))]
      simp only [List.flatMap_cons, List.flatMap_nil, List.append_nil]
      exact matchY_pyNat_finish hy1 hy2 (fun yy => f yy d)
    · rw [matchD_p2_high (by omega) hd2]
      simp only [List.flatMap_cons, List.flatMap_nil, List.append_nil]
      rw [matchLit_cons_self, matchLit_cons_ne (hsep _ (by omega))]
      simp only [List.flatMap_cons, List.flatMap_nil, List.append_nil]
      exact matchY_pyNat_finish hy1 hy2 (fun yy => f yy d)

theorem matchM_sep_Y_stage {sep : Char}
    (hsep : ∀ k, k < 10 → (dc k == sep) = false) {y m : Nat}
    (hy1 : 1000 ≤ y) (hy2 : y ≤ 9999) (hm1 : 1 ≤ m) (hm2 : m ≤ 12)
    {α : Type} (f : Nat → Nat → α) :
    (matchM (p2 m ++ sep :: pyNat y)).flatMap (fun p =>
      (matchLit sep p.2).flatMap (fun r4 =>
        (matchY r4).flatMap (fun p3 =>
          if p3.2.isEmpty then [f p3.1 p.1] else []))) = [f y m] := by
  by_cases h9 : m ≤ 9
  · rw [matchM_p2_low hm1 h9]
    simp only [List.flatMap_cons, List.flatMap_nil, List.append_nil]
    rw [matchLit_cons_self]
    simp only [List.flatMap_cons, List.flatMap_nil, List.append_nil]
    exact matchY_pyNat_finish hy1 hy2 (fun yy => f yy m)
  · rw [matchM_p2_high (by omega) hm2]
    simp only [List.flatMap_cons, List.flatMap_nil, List.append_nil]
    rw [matchLit_cons_self, matchLit_cons_ne (hsep _ (by omega))]
    simp only [List.flatMap_cons, List.flatMap_nil, List.append_nil]
    exact matchY_pyNat_finish hy1 hy2 (fun yy => f yy m)

theorem parseYMDsep_fmt {sep : Char}
    (hsep : ∀ k, k < 10 → (dc k == sep) = false) {y m d : Nat}
    (hy1 : 1000 ≤ y) (hy2 : y ≤ 9999) (hm1 : 1 ≤ m) (hm2 : m ≤ 12)
    (hd1 : 1 ≤ d) (hd2 : d ≤ 31) :
    parseYMDsep sep (fmtYMDsep sep y m d) = [(y, m, d)] := by
  rw [fmtYMDsep, parseYMDsep]
  simp only [List.append_assoc, List.cons_append]
  rw [matchY_pyNat hy1 hy2]
  simp only [List.flatMap_cons, List.flatMap_nil, List.append_nil]
  rw [matchLit_cons_self]
  simp only [List.flatMap_cons, List.flatMap_nil, List.append_nil]
  by_cases hm9 : m ≤ 9
  · rw [matchM_p2_low hm1 hm9]
    simp only [List.flatMap_cons, List.flatMap_nil, List.append_nil]
    rw [matchLit_cons_self]
    simp only [List.flatMap_cons, List.flatMap_nil, List.append_nil]
    exact matchD_p2_finish hd1 hd2 (fun dd => (y, m, dd))
  · rw [matchM_p2_high (by omega) hm2]
    simp only [List.flatMap_cons, List.flatMap_nil, List.append_nil]
    rw [matchLit_cons_self, matchLit_cons_ne (hsep (m % 10) (by omega))]
    simp only [List.flatMap_cons, List.flatMap_nil, List.append_nil]
    exact matchD_p2_finish hd1 hd2 (fun dd => (y, m, dd))

theorem parseMDYsep_fmt {sep : Char}
    (hsep : ∀ k, k < 10 → (dc k == sep) = false) {y m d : Nat}
    (hy1 : 1000 ≤ y) (hy2 : y ≤ 9999) (hm1 : 1 ≤ m) (hm2 : m ≤ 12)
    (hd1 : 1 ≤ d) (hd2 : d ≤ 31) :
    parseMDYsep sep (fmtMDYsep sep y m d) = [(y, m, d)] := by
  rw [fmtMDYsep, parseMDYsep]
  simp only [List.append_assoc, List.cons_append]
  by_cases hm9 : m ≤ 9
  · rw [matchM_p2_low hm1 hm9]
    simp only [List.flatMap_cons, List.flatMap_nil, List.append_nil]
    rw [matchLit_cons_self]
    simp only [List.flatMap_cons, List.flatMap_nil, List.append_nil]
    exact matchD_sep_Y_stage hsep hy1 hy2 hd1 hd2 (fun yy dd => (yy, m, dd))
  · rw [matchM_p2_high (by omega) hm2]
    simp only [List.flatMap_cons, List.flatMap_nil, List.append_nil]
    rw [matchLit_cons_self, matchLit_cons_ne (hsep (m % 10) (by omega))]
    simp only [List.flatMap_cons, List.flatMap_nil, List.append_nil]
    exact matchD_sep_Y_stage hsep hy1 hy2 hd1 hd2 (fun yy dd => (yy, m, dd))

theorem parseDMYsep_fmt {sep : Char}
    (hsep : ∀ k, k < 10 → (dc k == sep) = false) {y m d : Nat}
    (hy1 : 1000 ≤ y) (hy2 : y ≤ 9999) (hm1 : 1 ≤ m) (hm2 : m ≤ 12)
    (hd1 : 1 ≤ d) (hd2 : d ≤ 31) :
    parseDMYsep sep (fmtDMYsep sep y m d) = [(y, m, d)] := by
  rw [fmtDMYsep, parseDMYsep]
  simp only [List.append_assoc, List.cons_append]
  by_cases hd9 : d ≤ 9
  · rw [matchD_p2_low hd1 hd9]
    simp only [List.flatMap_cons, List.flatMap_nil, List.append_nil]
    rw [matchLit_cons_self]
    simp only [List.flatMap_cons, List.flatMap_nil, List.append_nil]
    exact matchM_sep_Y_stage hsep hy1 hy2 hm1 hm2 (fun yy mm => (yy, mm, d))
  · by_cases hd29 : d ≤ 29
    · rw [matchD_p2_mid (by omega) hd29]
      simp only [List.flatMap_cons, List.flatMap_nil, List.append_nil]
      rw [matchLit_cons_self, matchLit_cons_ne (hsep (d % 10) (by omega))]
      simp only [List.flatMap_cons, List.flatMap_nil, List.append_nil]
      exact matchM_sep_Y_stage hsep hy1 hy2 hm1 hm2 (fun yy mm => (yy, mm, d))
    · rw [matchD_p2_high (by omega) hd2]
      simp only [List.flatMap_cons, List.flatMap_nil, List.append_nil]
      rw [matchLit_cons_self, matchLit_cons_ne (hsep (d % 10) (by omega))]
      simp only [List.flatMap_cons, List.flatMap_nil, List.append_nil]
      exact matchM_sep_Y_stage hsep hy1 hy2 hm1 hm2 (fun yy mm => (yy, mm, d))

theorem wsY_stage {y : Nat} (hy1 : 1000 ≤ y) (hy2 : y ≤ 9999) {α : Type}
    (f : Nat → α) :
    (matchWS (' ' :: pyNat y)).flatMap (fun r5 =>
      (matchY r5).flatMap (fun p3 =>
        if p3.2.isEmpty then [f p3.1] else [])) = [f y] := by
  rw [pyNat4 hy1 hy2,
    matchWS_single (dc_not_space (show y / 1000 < 10 by omega))]
  simp only [List.flatMap_cons, List.flatMap_nil, List.append_nil]
  have hY := matchY_pyNat hy1 hy2 []
  rw [List.append_nil, pyNat4 hy1 hy2] at hY
  rw [hY]
  simp

theorem nameTail_parse {y d : Nat} (hy1 : 1000 ≤ y) (hy2 : y ≤ 9999)
    (hd1 : 1 ≤ d) (hd2 : d ≤ 31) {α : Type} (f : Nat → Nat → α) :
    (matchWS (' ' :: p2 d ++ ',' :: ' ' :: pyNat y)).flatMap (fun r2 =>
      (matchD r2).flatMap (fun p =>
        (matchLit ',' p.2).flatMap (fun r4 =>
          (matchWS r4).flatMap (fun r5 =>
            (matchY r5).flatMap (fun p3 =>
              if p3.2.isEmpty then [f p3.1 p.1] else []))))) = [f y d] := by
  simp only [List.cons_append]
  rw [p2_eq (show d ≤ 99 by omega)]
  simp only [List.cons_append, List.nil_append]
  rw [matchWS_single (dc_not_space (show d / 10 < 10 by omega))]
  simp only [List.flatMap_cons, List.flatMap_nil, List.append_nil]
  by_cases h9 : d ≤ 9
  · have e := matchD_p2_low hd1 h9 (',' :: ' ' :: pyNat y)
    rw [p2_eq (show d ≤ 99 by omega)] at e
    simp only [List.cons_append, List.nil_append] at e
    rw [e]
    simp only [List.flatMap_cons, List.flatMap_nil, List.append_nil]
    rw [matchLit_cons_self]
    simp only [List.flatMap_cons, List.flatMap_nil, List.append_nil]
    exact wsY_stage hy1 hy2 (fun yy => f yy d)
  · by_cases h29 : d ≤ 29
    · have e := matchD_p2_mid (by omega) h29 (',' :: ' ' :: pyNat y)
      rw [p2_eq (show d ≤ 99 by omega)] at e
      simp only [List.cons_append, List.nil_append] at e
      rw [e]
      simp only [List.flatMap_cons, List.flatMap_nil, List.append_nil]
      rw [matchLit_cons_self,
        matchLit_cons_ne (dc_beq_comma (show d % 10 < 10 by omega))]
      simp only [List.flatMap_cons, List.flatMap_nil, List.append_nil]
      exact wsY_stage hy1 hy2 (fun yy => f yy d)
    · have e := matchD_p2_high (by omega) hd2 (',' :: ' ' :: pyNat y)
      rw [p2_eq (show d ≤ 99 by omega)] at e
      simp only [List.cons_append, List.nil_append] at e
      rw [e]
      simp only [List.flatMap_cons, List.flatMap_nil, List.append_nil]
      rw [matchLit_cons_self,
        matchLit_cons_ne (dc_beq_comma (show d % 10 < 10 by omega))]
      simp only [List.flatMap_cons, List.flatMap_nil, List.append_nil]
      exact wsY_stage hy1 hy2 (fun yy => f yy d)

/-- Common core for the `%b %d, %Y` format: once the month-name match is
known, the rest of the formats' behaviour is forced. -/
theorem parse_date_name_abbrev {E : List Char} {y K d : Nat}
    (hy1 : 1000 ≤ y) (hy2 : y ≤ 9999) (hK1 : 1 ≤ K) (hK2 : K ≤ 12)
    (hd1 : 1 ≤ d) (hd2 : d ≤ daysInMonth y K) (hd31 : d ≤ 31)
    (hstrip : stripChars E = E)
    (hY : matchY E = [])
    (hM : matchM E = [])
    (hD : matchD E = [])
    (hAbb : matchNames monthAbbrevPairs E
      = [(K, ' ' :: p2 d ++ ',' :: ' ' :: pyNat y)]) :
    parse_date E = some (fmtISO y K d) := by
  rw [parse_date, hstrip, dateFormatsResults,
    @parseYMDsep_nil '-' E hY, @parseYMDsep_nil '/' E hY,
    @parseMDYsep_nil '/' E hM, @parseMDYsep_nil '-' E hM,
    @parseDMYsep_nil '/' E hD, @parseDMYsep_nil '-' E hD,
    parseNameFmt, hAbb]
  simp only [List.flatMap_cons, List.flatMap_nil, List.append_nil]
  rw [show (matchWS (' ' :: p2 d ++ ',' :: ' ' :: pyNat y)).flatMap (fun r2 =>
      (matchD r2).flatMap (fun p =>
        (matchLit ',' p.2).flatMap (fun r4 =>
          (matchWS r4).flatMap (fun r5 =>
            (matchY r5).flatMap (fun p3 =>
              if p3.2.isEmpty then [(p3.1, K, p.1)] else [])))))
      = [((y, K, d) : Nat × Nat × Nat)]
    from nameTail_parse hy1 hy2 hd1 hd31 (fun yy dd => (yy, K, dd))]
  simp only [tryFormat]
  rw [if_pos (validDate_true (by omega) (by omega) hK1 hK2 hd1 hd2)]
  simp only [firstSome]
  rfl

/-- Common core for the `%B %d, %Y` format, when the abbreviated-name
format has already failed. -/
theorem parse_date_name_full {E : List Char} {y K d : Nat}
    (hy1 : 1000 ≤ y) (hy2 : y ≤ 9999) (hK1 : 1 ≤ K) (hK2 : K ≤ 12)
    (hd1 : 1 ≤ d) (hd2 : d ≤ daysInMonth y K) (hd31 : d ≤ 31)
    (hstrip : stripChars E = E)
    (hY : matchY E = [])
    (hM : matchM E = [])
    (hD : matchD E = [])
    (hAbbDead : parseNameFmt monthAbbrevPairs E = [])
    (hFull : matchNames monthFullPairs E
      = [(K, ' ' :: p2 d ++ ',' :: ' ' :: pyNat y)]) :
    parse_date E = some (fmtISO y K d) := by
  rw [parse_date, hstrip, dateFormatsResults,
    @parseYMDsep_nil '-' E hY, @parseYMDsep_nil '/' E hY,
    @parseMDYsep_nil '/' E hM, @parseMDYsep_nil '-' E hM,
    @parseDMYsep_nil '/' E hD, @parseDMYsep_nil '-' E hD,
    hAbbDead, parseNameFmt, hFull]
  simp only [List.flatMap_cons, List.flatMap_nil, List.append_nil]
  rw [show (matchWS (' ' :: p2 d ++ ',' :: ' ' :: pyNat y)).flatMap (fun r2 =>
      (matchD r2).flatMap (fun p =>
        (matchLit ',' p.2).flatMap (fun r4 =>
          (matchWS r4).flatMap (fun r5 =>
            (matchY r5).flatMap (fun p3 =>
              if p3.2.isEmpty then [(p3.1, K, p.1)] else [])))))
      = [((y, K, d) : Nat × Nat × Nat)]
    from nameTail_parse hy1 hy2 hd1 hd31 (fun yy dd => (yy, K, dd))]
  simp only [tryFormat]
  rw [if_pos (validDate_true (by omega) (by omega) hK1 hK2 hd1 hd2)]
  simp only [firstSome]
  rfl

theorem parse_date_ymd_dash {y m d : Nat} (hy1 : 1000 ≤ y)
    (hy2 : y ≤ 9999) (hm1 : 1 ≤ m) (hm2 : m ≤ 12) (hd1 : 1 ≤ d)
    (hd2 : d ≤ daysInMonth y m) :
    parse_date (fmtYMDsep '-' y m d) = some (fmtISO y m d) := by
  have hd31 : d ≤ 31 := hd2.trans (daysInMonth_le_31 y m)
  rw [parse_date, strip_fmtYMDsep hy1 hy2 (by omega), dateFormatsResults,
    parseYMDsep_fmt dcs_ne_dash hy1 hy2 hm1 hm2 hd1 hd31]
  simp only [tryFormat]
  rw [if_pos (validDate_true (by omega) hy2 hm1 hm2 hd1 hd2)]
  simp only [firstSome]
  rfl

theorem parse_date_mdy_slash {y m d : Nat} (hy1 : 1000 ≤ y)
    (hy2 : y ≤ 9999) (hm1 : 1 ≤ m) (hm2 : m ≤ 12) (hd1 : 1 ≤ d)
    (hd2 : d ≤ daysInMonth y m) :
    parse_date (fmtMDYsep '/' y m d) = some (fmtISO y m d) := by
  have hd31 : d ≤ 31 := hd2.trans (daysInMonth_le_31 y m)
  have hYnil : matchY (fmtMDYsep '/' y m d) = [] := by
    rw [fmtMDYsep]
    simp only [List.append_assoc, List.cons_append]
    rw [p2_eq (show m ≤ 99 by omega)]
    simp only [List.cons_append, List.nil_append]
    exact matchY_nil_third (by decide) _
  rw [parse_date, strip_fmtMDYsep hy1 hy2 (by omega), dateFormatsResults,
    @parseYMDsep_nil '-' _ hYnil,
    parseMDYsep_fmt dcs_ne_slash hy1 hy2 hm1 hm2 hd1 hd31]
  simp only [tryFormat]
  rw [if_pos (validDate_true (by omega) hy2 hm1 hm2 hd1 hd2)]
  simp only [firstSome]
  rfl

theorem parse_date_ymd_slash {y m d : Nat} (hy1 : 1000 ≤ y)
    (hy2 : y ≤ 9999) (hm1 : 1 ≤ m) (hm2 : m ≤ 12) (hd1 : 1 ≤ d)
    (hd2 : d ≤ daysInMonth y m) :
    parse_date (fmtYMDsep '/' y m d) = some (fmtISO y m d) := by
  have hd31 : d ≤ 31 := hd2.trans (daysInMonth_le_31 y m)
  have hE : fmtYMDsep '/' y m d
      = pyNat y ++ '/' :: (p2 m ++ '/' :: p2 d) := by
    rw [fmtYMDsep]
    simp
  have hdrops := @matchLit_drops_4dig '/' y hy1 hy2 dcs_ne_slash
    ('/' :: (p2 m ++ '/' :: p2 d))
  have hfmt1 : parseYMDsep '-' (fmtYMDsep '/' y m d) = [] := by
    rw [hE]
    exact parseYMDsep_nil3 hy1 hy2 (matchLit_cons_ne (by decide) _)
  have hfmt2 : parseMDYsep '/' (fmtYMDsep '/' y m d) = [] := by
    rw [hE]
    exact parseMDYsep_nil2 hdrops.1 hdrops.2
  have hfmt3 : parseDMYsep '/' (fmtYMDsep '/' y m d) = [] := by
    rw [hE]
    exact parseDMYsep_nil2 hdrops.1 hdrops.2
  rw [parse_date, strip_fmtYMDsep hy1 hy2 (by omega), dateFormatsResults,
    hfmt1, hfmt2, hfmt3,
    parseYMDsep_fmt dcs_ne_slash hy1 hy2 hm1 hm2 hd1 hd31]
  simp only [tryFormat]
  rw [if_pos (validDate_true (by omega) hy2 hm1 hm2 hd1 hd2)]
  simp only [firstSome]
  rfl

theorem parse_date_mdy_dash {y m d : Nat} (hy1 : 1000 ≤ y)
    (hy2 : y ≤ 9999) (hm1 : 1 ≤ m) (hm2 : m ≤ 12) (hd1 : 1 ≤ d)
    (hd2 : d ≤ daysInMonth y m) :
    parse_date (fmtMDYsep '-' y m d) = some (fmtISO y m d) := by
  have hd31 : d ≤ 31 := hd2.trans (daysInMonth_le_31 y m)
  have hE : fmtMDYsep '-' y m d
      = p2 m ++ '-' :: (p2 d ++ '-' :: pyNat y) := by
    rw [fmtMDYsep]
    simp
  have hYnil : matchY (fmtMDYsep '-' y m d) = [] := by
    rw [hE, p2_eq (show m ≤ 99 by omega)]
    simp only [List.cons_append, List.nil_append]
    exact matchY_nil_third (by decide) _
  have hdrops := @matchLit_drops_2dig '/' '-' m (by omega)
    (dc_beq_slash (by omega)) (by decide) (p2 d ++ '-' :: pyNat y)
  have hfmt2 : parseMDYsep '/' (fmtMDYsep '-' y m d) = [] := by
    rw [hE]
    exact parseMDYsep_nil2 hdrops.1 hdrops.2
  have hfmt3 : parseDMYsep '/' (fmtMDYsep '-' y m d) = [] := by
    rw [hE]
    exact parseDMYsep_nil2 hdrops.1 hdrops.2
  rw [parse_date, strip_fmtMDYsep hy1 hy2 (by omega), dateFormatsResults,
    @parseYMDsep_nil '-' _ hYnil, hfmt2, hfmt3,
    @parseYMDsep_nil '/' _ hYnil,
    parseMDYsep_fmt dcs_ne_dash hy1 hy2 hm1 hm2 hd1 hd31]
  simp only [tryFormat]
  rw [if_pos (validDate_true (by omega) hy2 hm1 hm2 hd1 hd2)]
  simp only [firstSome]
  rfl

theorem parse_date_dmy_slash_high {y m d : Nat} (hy1 : 1000 ≤ y)
    (hy2 : y ≤ 9999) (hm1 : 1 ≤ m) (hm2 : m ≤ 12) (hd1 : 1 ≤ d)
    (hd2 : d ≤ daysInMonth y m) (hd13 : 13 ≤ d) :
    parse_date (fmtDMYsep '/' y m d) = some (fmtISO y m d) := by
  have hd31 : d ≤ 31 := hd2.trans (daysInMonth_le_31 y m)
  have hstrip : stripChars (fmtDMYsep '/' y m d) = fmtDMYsep '/' y m d :=
    strip_fmtMDYsep hy1 hy2 (show d ≤ 99 by omega)
  have hE : fmtDMYsep '/' y m d
      = p2 d ++ '/' :: (p2 m ++ '/' :: pyNat y) := by
    rw [fmtDMYsep]
    simp
  have hYnil : matchY (fmtDMYsep '/' y m d) = [] := by
    rw [hE, p2_eq (show d ≤ 99 by omega)]
    simp only [List.cons_append, List.nil_append]
    exact matchY_nil_third (by decide) _
  have hfmt2 : parseMDYsep '/' (fmtDMYsep '/' y m d) = [] := by
    rw [hE]
    exact parseMDYsep_nil_day_high hd13 hd31 dcs_ne_slash _
  rw [parse_date, hstrip, dateFormatsResults,
    @parseYMDsep_nil '-' _ hYnil, hfmt2,
    parseDMYsep_fmt dcs_ne_slash hy1 hy2 hm1 hm2 hd1 hd31]
  simp only [tryFormat]
  rw [if_pos (validDate_true (by omega) hy2 hm1 hm2 hd1 hd2)]
  simp only [firstSome]
  rfl

theorem parse_date_dmy_slash_low {y m d : Nat} (hy1 : 1000 ≤ y)
    (hy2 : y ≤ 9999) (hm1 : 1 ≤ m) (hm2 : m ≤ 12) (hd1 : 1 ≤ d)
    (hd12 : d ≤ 12) :
    parse_date (fmtDMYsep '/' y m d) = some (fmtISO y d m) := by
  have hstrip : stripChars (fmtDMYsep '/' y m d) = fmtDMYsep '/' y m d :=
    strip_fmtMDYsep hy1 hy2 (show d ≤ 99 by omega)
  have hE : fmtDMYsep '/' y m d
      = p2 d ++ '/' :: (p2 m ++ '/' :: pyNat y) := by
    rw [fmtDMYsep]
    simp
  have hYnil : matchY (fmtDMYsep '/' y m d) = [] := by
    rw [hE, p2_eq (show d ≤ 99 by omega)]
    simp only [List.cons_append, List.nil_append]
    exact matchY_nil_third (by decide) _
  have hwin : parseMDYsep '/' (fmtDMYsep '/' y m d) = [(y, d, m)] :=
    parseMDYsep_fmt dcs_ne_slash hy1 hy2 hd1 hd12 hm1 (show m ≤ 31 by omega)
  rw [parse_date, hstrip, dateFormatsResults,
    @parseYMDsep_nil '-' _ hYnil, hwin]
  simp only [tryFormat]
  rw [if_pos (validDate_true (by omega) hy2 hd1 hd12 hm1
    (le_trans (show m ≤ 28 by omega) (daysInMonth_ge_28 y hd1 hd12)))]
  simp only [firstSome]
  rfl

theorem parse_date_dmy_dash_high {y m d : Nat} (hy1 : 1000 ≤ y)
    (hy2 : y ≤ 9999) (hm1 : 1 ≤ m) (hm2 : m ≤ 12) (hd1 : 1 ≤ d)
    (hd2 : d ≤ daysInMonth y m) (hd13 : 13 ≤ d) :
    parse_date (fmtDMYsep '-' y m d) = some (fmtISO y m d) := by
  have hd31 : d ≤ 31 := hd2.trans (daysInMonth_le_31 y m)
  have hstrip : stripChars (fmtDMYsep '-' y m d) = fmtDMYsep '-' y m d :=
    strip_fmtMDYsep hy1 hy2 (show d ≤ 99 by omega)
  have hE : fmtDMYsep '-' y m d
      = p2 d ++ '-' :: (p2 m ++ '-' :: pyNat y) := by
    rw [fmtDMYsep]
    simp
  have hYnil : matchY (fmtDMYsep '-' y m d) = [] := by
    rw [hE, p2_eq (show d ≤ 99 by omega)]
    simp only [List.cons_append, List.nil_append]
    exact matchY_nil_third (by decide) _
  have hdrops := @matchLit_drops_2dig '/' '-' d (by omega)
    (dc_beq_slash (by omega)) (by decide) (p2 m ++ '-' :: pyNat y)
  have hfmt2 : parseMDYsep '/' (fmtDMYsep '-' y m d) = [] := by
    rw [hE]
    exact parseMDYsep_nil2 hdrops.1 hdrops.2
  have hfmt3 : parseDMYsep '/' (fmtDMYsep '-' y m d) = [] := by
    rw [hE]
    exact parseDMYsep_nil2 hdrops.1 hdrops.2
  have hfmt5 : parseMDYsep '-' (fmtDMYsep '-' y m d) = [] := by
    rw [hE]
    exact parseMDYsep_nil_day_high hd13 hd31 dcs_ne_dash _
  rw [parse_date, hstrip, dateFormatsResults,
    @parseYMDsep_nil '-' _ hYnil, hfmt2, hfmt3,
    @parseYMDsep_nil '/' _ hYnil, hfmt5,
    parseDMYsep_fmt dcs_ne_dash hy1 hy2 hm1 hm2 hd1 hd31]
  simp only [tryFormat]
  rw [if_pos (validDate_true (by omega) hy2 hm1 hm2 hd1 hd2)]
  simp only [firstSome]
  rfl

theorem parse_date_dmy_dash_low {y m d : Nat} (hy1 : 1000 ≤ y)
    (hy2 : y ≤ 9999) (hm1 : 1 ≤ m) (hm2 : m ≤ 12) (hd1 : 1 ≤ d)
    (hd12 : d ≤ 12) :
    parse_date (fmtDMYsep '-' y m d) = some (fmtISO y d m) := by
  have hstrip : stripChars (fmtDMYsep '-' y m d) = fmtDMYsep '-' y m d :=
    strip_fmtMDYsep hy1 hy2 (show d ≤ 99 by omega)
  have hE : fmtDMYsep '-' y m d
      = p2 d ++ '-' :: (p2 m ++ '-' :: pyNat y) := by
    rw [fmtDMYsep]
    simp
  have hYnil : matchY (fmtDMYsep '-' y m d) = [] := by
    rw [hE, p2_eq (show d ≤ 99 by omega)]
    simp only [List.cons_append, List.nil_append]
    exact matchY_nil_third (by decide) _
  have hdrops := @matchLit_drops_2dig '/' '-' d (by omega)
    (dc_beq_slash (by omega)) (by decide) (p2 m ++ '-' :: pyNat y)
  have hfmt2 : parseMDYsep '/' (fmtDMYsep '-' y m d) = [] := by
    rw [hE]
    exact parseMDYsep_nil2 hdrops.1 hdrops.2
  have hfmt3 : parseDMYsep '/' (fmtDMYsep '-' y m d) = [] := by
    rw [hE]
    exact parseDMYsep_nil2 hdrops.1 hdrops.2
  have hwin : parseMDYsep '-' (fmtDMYsep '-' y m d) = [(y, d, m)] :=
    parseMDYsep_fmt dcs_ne_dash hy1 hy2 hd1 hd12 hm1 (show m ≤ 31 by omega)
  rw [parse_date, hstrip, dateFormatsResults,
    @parseYMDsep_nil '-' _ hYnil, hfmt2, hfmt3,
    @parseYMDsep_nil '/' _ hYnil, hwin]
  simp only [tryFormat]
  rw [if_pos (validDate_true (by omega) hy2 hd1 hd12 hm1
    (le_trans (show m ≤ 28 by omega) (daysInMonth_ge_28 y hd1 hd12)))]
  simp only [firstSome]
  rfl

theorem strip_name_shape {nm : List Char} {a : Char} (hnm : nm.head? = some a)
    (ha : isSpaceChar a = false) {y d : Nat} (hy1 : 1000 ≤ y)
    (hy2 : y ≤ 9999) :
    stripChars (nm ++ ' ' :: p2 d ++ ',' :: ' ' :: pyNat y)
      = nm ++ ' ' :: p2 d ++ ',' :: ' ' :: pyNat y := by
  apply stripChars_eq_self
  · intro c hc
    cases nm with
    | nil => simp at hnm
    | cons b t =>
      simp only [List.head?_cons, Option.some.injEq] at hnm
      subst hnm
      rw [show ((b :: t) ++ ' ' :: p2 d ++ ',' :: ' ' :: pyNat y).head?
        = some b from rfl] at hc
      injection hc with hc
      subst hc
      exact ha
  · intro c hc
    rw [show (nm ++ ' ' :: p2 d ++ ',' :: ' ' :: pyNat y)
      = (nm ++ ' ' :: p2 d ++ [',', ' ']) ++ pyNat y from by simp,
      getLast?_append_pyNat hy1 hy2] at hc
    injection hc with hc
    subst hc
    exact dc_not_space (by omega)

theorem parse_date_fmtB {y m d : Nat} (hy1 : 1000 ≤ y) (hy2 : y ≤ 9999)
    (hm1 : 1 ≤ m) (hm2 : m ≤ 12) (hd1 : 1 ≤ d)
    (hd2 : d ≤ daysInMonth y m) :
    parse_date (fmtB y m d) = some (fmtISO y m d) := by
  have hd31 : d ≤ 31 := hd2.trans (daysInMonth_le_31 y m)
  interval_cases m
  · exact parse_date_name_abbrev hy1 hy2 (by decide) (by decide) hd1 hd2
      hd31
      (strip_name_shape (show ("Jan".data).head? = some 'J' from rfl)
        (by decide) hy1 hy2)
      (matchY_nil_first (by decide) _)
      (matchM_nil_first (by decide) (by decide) (by decide) _)
      (matchD_nil_first (by decide) (by decide) (by decide) (by decide)
        (by decide) _)
      rfl
  · exact parse_date_name_abbrev hy1 hy2 (by decide) (by decide) hd1 hd2
      hd31
      (strip_name_shape (show ("Feb".data).head? = some 'F' from rfl)
        (by decide) hy1 hy2)
      (matchY_nil_first (by decide) _)
      (matchM_nil_first (by decide) (by decide) (by decide) _)
      (matchD_nil_first (by decide) (by decide) (by decide) (by decide)
        (by decide) _)
      rfl
  · exact parse_date_name_abbrev hy1 hy2 (by decide) (by decide) hd1 hd2
      hd31
      (strip_name_shape (show ("Mar".data).head? = some 'M' from rfl)
        (by decide) hy1 hy2)
      (matchY_nil_first (by decide) _)
      (matchM_nil_first (by decide) (by decide) (by decide) _)
      (matchD_nil_first (by decide) (by decide) (by decide) (by decide)
        (by decide) _)
      rfl
  · exact parse_date_name_abbrev hy1 hy2 (by decide) (by decide) hd1 hd2
      hd31
      (strip_name_shape (show ("Apr".data).head? = some 'A' from rfl)
        (by decide) hy1 hy2)
      (matchY_nil_first (by decide) _)
      (matchM_nil_first (by decide) (by decide) (by decide) _)
      (matchD_nil_first (by decide) (by decide) (by decide) (by decide)
        (by decide) _)
      rfl
  · exact parse_date_name_abbrev hy1 hy2 (by decide) (by decide) hd1 hd2
      hd31
      (strip_name_shape (show ("May".data).head? = some 'M' from rfl)
        (by decide) hy1 hy2)
      (matchY_nil_first (by decide) _)
      (matchM_nil_first (by decide) (by decide) (by decide) _)
      (matchD_nil_first (by decide) (by decide) (by decide) (by decide)
        (by decide) _)
      rfl
  · exact parse_date_name_abbrev hy1 hy2 (by decide) (by decide) hd1 hd2
      hd31
      (strip_name_shape (show ("Jun".data).head? = some 'J' from rfl)
        (by decide) hy1 hy2)
      (matchY_nil_first (by decide) _)
      (matchM_nil_first (by decide) (by decide) (by decide) _)
      (matchD_nil_first (by decide) (by decide) (by decide) (by decide)
        (by decide) _)
      rfl
  · exact parse_date_name_abbrev hy1 hy2 (by decide) (by decide) hd1 hd2
      hd31
      (strip_name_shape (show ("Jul".data).head? = some 'J' from rfl)
        (by decide) hy1 hy2)
      (matchY_nil_first (by decide) _)
      (matchM_nil_first (by decide) (by decide) (by decide) _)
      (matchD_nil_first (by decide) (by decide) (by decide) (by decide)
        (by decide) _)
      rfl
  · exact parse_date_name_abbrev hy1 hy2 (by decide) (by decide) hd1 hd2
      hd31
      (strip_name_shape (show ("Aug".data).head? = some 'A' from rfl)
        (by decide) hy1 hy2)
      (matchY_nil_first (by decide) _)
      (matchM_nil_first (by decide) (by decide) (by decide) _)
      (matchD_nil_first (by decide) (by decide) (by decide) (by decide)
        (by decide) _)
      rfl
  · exact parse_date_name_abbrev hy1 hy2 (by decide) (by decide) hd1 hd2
      hd31
      (strip_name_shape (show ("Sep".data).head? = some 'S' from rfl)
        (by decide) hy1 hy2)
      (matchY_nil_first (by decide) _)
      (matchM_nil_first (by decide) (by decide) (by decide) _)
      (matchD_nil_first (by decide) (by decide) (by decide) (by decide)
        (by decide) _)
      rfl
  · exact parse_date_name_abbrev hy1 hy2 (by decide) (by decide) hd1 hd2
      hd31
      (strip_name_shape (show ("Oct".data).head? = some 'O' from rfl)
        (by decide) hy1 hy2)
      (matchY_nil_first (by decide) _)
      (matchM_nil_first (by decide) (by decide) (by decide) _)
      (matchD_nil_first (by decide) (by decide) (by decide) (by decide)
        (by decide) _)
      rfl
  · exact parse_date_name_abbrev hy1 hy2 (by decide) (by decide) hd1 hd2
      hd31
      (strip_name_shape (show ("Nov".data).head? = some 'N' from rfl)
        (by decide) hy1 hy2)
      (matchY_nil_first (by decide) _)
      (matchM_nil_first (by decide) (by decide) (by decide) _)
      (matchD_nil_first (by decide) (by decide) (by decide) (by decide)
        (by decide) _)
      rfl
  · exact parse_date_name_abbrev hy1 hy2 (by decide) (by decide) hd1 hd2
      hd31
      (strip_name_shape (show ("Dec".data).head? = some 'D' from rfl)
        (by decide) hy1 hy2)
      (matchY_nil_first (by decide) _)
      (matchM_nil_first (by decide) (by decide) (by decide) _)
      (matchD_nil_first (by decide) (by decide) (by decide) (by decide)
        (by decide) _)
      rfl

theorem parse_date_fmtBB {y m d : Nat} (hy1 : 1000 ≤ y) (hy2 : y ≤ 9999)
    (hm1 : 1 ≤ m) (hm2 : m ≤ 12) (hd1 : 1 ≤ d)
    (hd2 : d ≤ daysInMonth y m) :
    parse_date (fmtBB y m d) = some (fmtISO y m d) := by
  have hd31 : d ≤ 31 := hd2.trans (daysInMonth_le_31 y m)
  interval_cases m
  · exact parse_date_name_full hy1 hy2 (by decide) (by decide) hd1 hd2
      hd31
      (strip_name_shape (show ("January".data).head? = some 'J' from rfl)
        (by decide) hy1 hy2)
      (matchY_nil_first (by decide) _)
      (matchM_nil_first (by decide) (by decide) (by decide) _)
      (matchD_nil_first (by decide) (by decide) (by decide) (by decide)
        (by decide) _)
      rfl rfl
  · exact parse_date_name_full hy1 hy2 (by decide) (by decide) hd1 hd2
      hd31
      (strip_name_shape (show ("February".data).head? = some 'F' from rfl)
        (by decide) hy1 hy2)
      (matchY_nil_first (by decide) _)
      (matchM_nil_first (by decide) (by decide) (by decide) _)
      (matchD_nil_first (by decide) (by decide) (by decide) (by decide)
        (by decide) _)
      rfl rfl
  · exact parse_date_name_full hy1 hy2 (by decide) (by decide) hd1 hd2
      hd31
      (strip_name_shape (show ("March".data).head? = some 'M' from rfl)
        (by decide) hy1 hy2)
      (matchY_nil_first (by decide) _)
      (matchM_nil_first (by decide) (by decide) (by decide) _)
      (matchD_nil_first (by decide) (by decide) (by decide) (by decide)
        (by decide) _)
      rfl rfl
  · exact parse_date_name_full hy1 hy2 (by decide) (by decide) hd1 hd2
      hd31
      (strip_name_shape (show ("April".data).head? = some 'A' from rfl)
        (by decide) hy1 hy2)
      (matchY_nil_first (by decide) _)
      (matchM_nil_first (by decide) (by decide) (by decide) _)
      (matchD_nil_first (by decide) (by decide) (by decide) (by decide)
        (by decide) _)
      rfl rfl
  · exact parse_date_name_abbrev hy1 hy2 (by decide) (by decide) hd1 hd2
      hd31
      (strip_name_shape (show ("May".data).head? = some 'M' from rfl)
        (by decide) hy1 hy2)
      (matchY_nil_first (by decide) _)
      (matchM_nil_first (by decide) (by decide) (by decide) _)
      (matchD_nil_first (by decide) (by decide) (by decide) (by decide)
        (by decide) _)
      rfl
  · exact parse_date_name_full hy1 hy2 (by decide) (by decide) hd1 hd2
      hd31
      (strip_name_shape (show ("June".data).head? = some 'J' from rfl)
        (by decide) hy1 hy2)
      (matchY_nil_first (by decide) _)
      (matchM_nil_first (by decide) (by decide) (by decide) _)
      (matchD_nil_first (by decide) (by decide) (by decide) (by decide)
        (by decide) _)
      rfl rfl
  · exact parse_date_name_full hy1 hy2 (by decide) (by decide) hd1 hd2
      hd31
      (strip_name_shape (show ("July".data).head? = some 'J' from rfl)
        (by decide) hy1 hy2)
      (matchY_nil_first (by decide) _)
      (matchM_nil_first (by decide) (by decide) (by decide) _)
      (matchD_nil_first (by decide) (by decide) (by decide) (by decide)
        (by decide) _)
      rfl rfl
  · exact parse_date_name_full hy1 hy2 (by decide) (by decide) hd1 hd2
      hd31
      (strip_name_shape (show ("August".data).head? = some 'A' from rfl)
        (by decide) hy1 hy2)
      (matchY_nil_first (by decide) _)
      (matchM_nil_first (by decide) (by decide) (by decide) _)
      (matchD_nil_first (by decide) (by decide) (by decide) (by decide)
        (by decide) _)
      rfl rfl
  · exact parse_date_name_full hy1 hy2 (by decide) (by decide) hd1 hd2
      hd31
      (strip_name_shape (show ("September".data).head? = some 'S' from rfl)
        (by decide) hy1 hy2)
      (matchY_nil_first (by decide) _)
      (matchM_nil_first (by decide) (by decide) (by decide) _)
      (matchD_nil_first (by decide) (by decide) (by decide) (by decide)
        (by decide) _)
      rfl rfl
  · exact parse_date_name_full hy1 hy2 (by decide) (by decide) hd1 hd2
      hd31
      (strip_name_shape (show ("October".data).head? = some 'O' from rfl)
        (by decide) hy1 hy2)
      (matchY_nil_first (by decide) _)
      (matchM_nil_first (by decide) (by decide) (by decide) _)
      (matchD_nil_first (by decide) (by decide) (by decide) (by decide)
        (by decide) _)
      rfl rfl
  · exact parse_date_name_full hy1 hy2 (by decide) (by decide) hd1 hd2
      hd31
      (strip_name_shape (show ("November".data).head? = some 'N' from rfl)
        (by decide) hy1 hy2)
      (matchY_nil_first (by decide) _)
      (matchM_nil_first (by decide) (by decide) (by decide) _)
      (matchD_nil_first (by decide) (by decide) (by decide) (by decide)
        (by decide) _)
      rfl rfl
  · exact parse_date_name_full hy1 hy2 (by decide) (by decide) hd1 hd2
      hd31
      (strip_name_shape (show ("December".data).head? = some 'D' from rfl)
        (by decide) hy1 hy2)
      (matchY_nil_first (by decide) _)
      (matchM_nil_first (by decide) (by decide) (by decide) _)
      (matchD_nil_first (by decide) (by decide) (by decide) (by decide)
        (by decide) _)
      rfl rfl

/-- C6: `_parse_date` strips surrounding whitespace and tries the eight
formats in their fixed order, returning the canonical `YYYY-MM-DD`
rendering of the first fully matching format. For every valid date with a
four-digit year, the round trip through `%Y-%m-%d`, `%m/%d/%Y`,
`%Y/%m/%d`, `%m-%d-%Y`, `%b %d, %Y` and `%B %d, %Y` recovers the
canonical date; the `%d/%m/%Y` and `%d-%m-%Y` renderings are instead
captured by the earlier `%m/%d/%Y` (resp. `%m-%d-%Y`) format whenever the
day is at most 12, swapping month and day, and round-trip only when the
day is at least 13. -/
theorem parse_date_roundtrip (y m d : Nat) (hy1 : 1000 ≤ y)
    (hy2 : y ≤ 9999) (hm1 : 1 ≤ m) (hm2 : m ≤ 12) (hd1 : 1 ≤ d)
    (hd2 : d ≤ daysInMonth y m) :
    parse_date (fmtYMDsep '-' y m d) = some (fmtISO y m d) ∧
    parse_date (fmtMDYsep '/' y m d) = some (fmtISO y m d) ∧
    parse_date (fmtYMDsep '/' y m d) = some (fmtISO y m d) ∧
    parse_date (fmtMDYsep '-' y m d) = some (fmtISO y m d) ∧
    parse_date (fmtB y m d) = some (fmtISO y m d) ∧
    parse_date (fmtBB y m d) = some (fmtISO y m d) ∧
    (13 ≤ d →
      parse_date (fmtDMYsep '/' y m d) = some (fmtISO y m d) ∧
      parse_date (fmtDMYsep '-' y m d) = some (fmtISO y m d)) ∧
    (d ≤ 12 →
      parse_date (fmtDMYsep '/' y m d) = some (fmtISO y d m) ∧
      parse_date (fmtDMYsep '-' y m d) = some (fmtISO y d m)) :=
  ⟨parse_date_ymd_dash hy1 hy2 hm1 hm2 hd1 hd2,
   parse_date_mdy_slash hy1 hy2 hm1 hm2 hd1 hd2,
   parse_date_ymd_slash hy1 hy2 hm1 hm2 hd1 hd2,
   parse_date_mdy_dash hy1 hy2 hm1 hm2 hd1 hd2,
   parse_date_fmtB hy1 hy2 hm1 hm2 hd1 hd2,
   parse_date_fmtBB hy1 hy2 hm1 hm2 hd1 hd2,
   fun h13 => ⟨parse_date_dmy_slash_high hy1 hy2 hm1 hm2 hd1 hd2 h13,
     parse_date_dmy_dash_high hy1 hy2 hm1 hm2 hd1 hd2 h13⟩,
   fun h12 => ⟨parse_date_dmy_slash_low hy1 hy2 hm1 hm2 hd1 h12,
     parse_date_dmy_dash_low hy1 hy2 hm1 hm2 hd1 h12⟩⟩

/-- C6 counterexample: the valid date 2024-05-03 rendered in the
supported `%d/%m/%Y` format is "03/05/2024", yet parsing returns
"2024-03-05" because `%m/%d/%Y` is tried first - the universal
round-trip clause of the claim fails. -/
theorem parse_date_ddmm_swap_cex :
    fmtDMYsep '/' 2024 5 3 = "03/05/2024".data ∧
    parse_date ("03/05/2024".data) = some ("2024-03-05".data) ∧
    fmtISO 2024 5 3 = "2024-05-03".data ∧
    some ("2024-03-05".data) ≠ some ("2024-05-03".data) := by
  refine ⟨by decide, by decide, by decide, by decide⟩

/-- C6 witness: the round-trip theorem evaluated at 2024-05-15. -/
theorem parse_date_roundtrip_witness :
    (1000 ≤ 2024 ∧ 2024 ≤ 9999 ∧ 1 ≤ 5 ∧ 5 ≤ 12 ∧ 1 ≤ 15 ∧
      15 ≤ daysInMonth 2024 5) ∧
    (parse_date (fmtYMDsep '-' 2024 5 15) = some (fmtISO 2024 5 15) ∧
     parse_date (fmtMDYsep '/' 2024 5 15) = some (fmtISO 2024 5 15) ∧
     parse_date (fmtYMDsep '/' 2024 5 15) = some (fmtISO 2024 5 15) ∧
     parse_date (fmtMDYsep '-' 2024 5 15) = some (fmtISO 2024 5 15) ∧
     parse_date (fmtB 2024 5 15) = some (fmtISO 2024 5 15) ∧
     parse_date (fmtBB 2024 5 15) = some (fmtISO 2024 5 15) ∧
     (13 ≤ 15 →
       parse_date (fmtDMYsep '/' 2024 5 15) = some (fmtISO 2024 5 15) ∧
       parse_date (fmtDMYsep '-' 2024 5 15) = some (fmtISO 2024 5 15)) ∧
     (15 ≤ 12 →
       parse_date (fmtDMYsep '/' 2024 5 15) = some (fmtISO 2024 15 5) ∧
       parse_date (fmtDMYsep '-' 2024 5 15) = some (fmtISO 2024 15 5))) :=
  ⟨by decide,
   parse_date_roundtrip 2024 5 15 (by decide) (by decide) (by decide)
     (by decide) (by decide) (by decide)⟩

theorem parse_amount_seven : parse_amount ("7".data) = some (7 : ℚ) := by
  rw [show parse_amount ("7".data)
      = some ((1 : ℚ) * ((digitsVal ("7".data) : ℚ)
        + (digitsVal ("".data) : ℚ) / 10 ^ ("".data).length)) from rfl]
  rw [show digitsVal ("7".data) = 7 from rfl,
    show digitsVal ("".data) = 0 from rfl,
    show ("".data).length = 0 from rfl]
  refine congrArg some ?_
  norm_num

theorem parse_amount_zero : parse_amount ("0".data) = some (0 : ℚ) := by
  rw [show parse_amount ("0".data)
      = some ((1 : ℚ) * ((digitsVal ("0".data) : ℚ)
        + (digitsVal ("".data) : ℚ) / 10 ^ ("".data).length)) from rfl]
  rw [show digitsVal ("0".data) = 0 from rfl,
    show digitsVal ("".data) = 0 from rfl,
    show ("".data).length = 0 from rfl]
  refine congrArg some ?_
  norm_num

theorem processRow_okRow_ok : ∃ t, processRow okRow = Except.ok t := by
  simp only [processRow, okRow,
    show parse_date ("2024-01-15".data) = some ("2024-01-15".data)
      from by decide,
    parse_amount_seven]
  exact ⟨_, rfl⟩

theorem processRow_badDateRow :
    processRow badDateRow
      = Except.error ("Skipping row with invalid date: 13/13/2024".data) := by
  simp only [processRow, badDateRow,
    show parse_date ("13/13/2024".data) = none from by decide]
  rfl

theorem parseCsv_length (rows : List RawRow) :
    (parseCsv rows).1.length + (parseCsv rows).2.length = rows.length := by
  induction rows with
  | nil => rfl
  | cons r rest ih =>
    rw [parseCsv]
    cases hp : processRow r with
    | ok t =>
      simp only [hp, List.length_cons]
      omega
    | error e =>
      simp only [hp, List.length_cons]
      omega

theorem parseCsv_demoBatch :
    (parseCsv demoBatch).1.length = 4 ∧
    (parseCsv demoBatch).2
      = [("Skipping row with invalid date: 13/13/2024".data)] := by
  obtain ⟨t, ht⟩ := processRow_okRow_ok
  simp only [demoBatch, parseCsv, ht, processRow_badDateRow]
  refine ⟨?_, ?_⟩ <;> trivial

/-- C4: importing never aborts - for every batch, each row is either
parsed or skipped (the counts add up to the batch size), and over the
5-row batch whose third row has the unparseable date "13/13/2024" the
four good rows are imported (imported count 4) with exactly one skip
message; the message records only the offending value, not the row
index. -/
theorem csv_import_skips (rows : List RawRow) :
    (parseCsv rows).1.length + (parseCsv rows).2.length = rows.length ∧
    import_count demoBatch = 4 ∧
    (parseCsv demoBatch).2
      = [("Skipping row with invalid date: 13/13/2024".data)] :=
  ⟨parseCsv_length rows, parseCsv_demoBatch.1, parseCsv_demoBatch.2⟩

/-- C4 counterexample: two batches that differ only in the position of
the bad row (third versus fifth) produce identical failure records, so
the recorded failure cannot reference a row index as claimed. -/
theorem csv_failure_no_index_cex :
    (parseCsv demoBatch).2 = (parseCsv demoBatchLate).2 ∧
    demoBatch.get? 2 = some badDateRow ∧
    demoBatchLate.get? 2 ≠ some badDateRow ∧
    demoBatchLate.get? 4 = some badDateRow := by
  obtain ⟨t, ht⟩ := processRow_okRow_ok
  refine ⟨?_, by decide, by decide, by decide⟩
  simp only [demoBatch, demoBatchLate, parseCsv, ht, processRow_badDateRow]

/-- C10: a row whose amount parses to exactly 0 is imported, not
rejected: the income test `amount > 0` is strict, so the row is
classified as an expense with magnitude 0. -/
theorem zero_amount_is_expense (r : RawRow) (dt : List Char)
    (hd : parse_date r.date = some dt)
    (ha : parse_amount r.amount = some 0) :
    processRow r = Except.ok (CsvTxn.mk dt r.desc 0
      (get_suggested_category r.desc 0) ("expense".data)) := by
  simp only [processRow, hd, ha, abs_zero, neg_zero, ite_self]
  rw [if_neg (show ¬ (0 : ℚ) < 0 from by norm_num)]

/-- C10 witness: the zero-amount row ("2024-01-15", "x", "0") is
imported as a zero expense. -/
theorem zero_amount_is_expense_witness :
    (parse_date ("2024-01-15".data) = some ("2024-01-15".data) ∧
      parse_amount ("0".data) = some 0) ∧
    processRow (RawRow.mk ("2024-01-15".data) ("x".data) ("0".data))
      = Except.ok (CsvTxn.mk ("2024-01-15".data) ("x".data) 0
        (get_suggested_category ("x".data) 0) ("expense".data)) :=
  ⟨⟨by decide, parse_amount_zero⟩,
   zero_amount_is_expense (RawRow.mk ("2024-01-15".data) ("x".data)
     ("0".data)) ("2024-01-15".data) (by decide) parse_amount_zero⟩

end FinTrack
